import Mathlib

/-!
# Constraint modelling layer of the canvas (`libs/canvas/constrained_item.cc`)

A shallow embedding of `ArdourCanvas::ConstrainedItem` and
`ArdourCanvas::BoxConstrainedItem`.

* The source builds `kiwi::Constraint` objects with overloaded operators
  (`_right == _left + _width`).  The kiwi headers are not part of `src/`, so a
  constraint is kept as the syntax tree of the expression the source writes:
  `lhs == rhs` over variables, literals, `+` and `/`.
* `Distance`/`Coord` are C++ `double`; here they are rationals, i.e. exact
  arithmetic.
* A method that mutates `*this` and returns `*this` becomes a function from the
  entity to the updated entity.
* The values a solver stores inside the variables are an explicit argument
  (`VarValues`).
* `dump` writes to a stream: the stream is the text written so far, and the way
  it prints a `double` is an argument.
* Where object identity matters (method chaining), entities live in a `Scene`,
  by address, and a method returns the address it was called on.
-/

namespace ArdourCanvas

/-! ## The solver vocabulary (kiwi) -/

/-- Modelled from the spec: `kiwi::Variable` is not in `src/`.  The spec calls a
variable "a named scalar unknown", "uniquely identified by a string derived from
the item's name concatenated with a role suffix"; so a variable is its name. -/
structure Variable where
  name : String
deriving DecidableEq, Repr

/-- The values held by the variables (what `Variable::value()` reads); written by
the solver, read by `constrained` and `dump`. -/
abbrev VarValues := Variable → ℚ

/-- Modelled from the spec: `kiwi::Expression` is not in `src/`.  The linear
expressions the source writes: a variable, a literal, a sum (`a + b`) and a
quotient by a literal (`a / 2.`). -/
inductive Expression where
  | var (v : Variable)
  | const (c : ℚ)
  | add (a b : Expression)
  | div (a : Expression) (d : ℚ)
deriving DecidableEq, Repr

namespace Expression

/-- The variables an expression mentions, left to right. -/
def vars : Expression → List Variable
  | var v => [v]
  | const _ => []
  | add a b => a.vars ++ b.vars
  | div a _ => a.vars

/-- Does the expression mention the variable `v`? -/
def involves : Expression → Variable → Bool
  | var w, v => decide (w = v)
  | const _, _ => false
  | add a b, v => a.involves v || b.involves v
  | div a _, v => a.involves v

/-- Value of an expression under a valuation. -/
def eval (σ : VarValues) : Expression → ℚ
  | var v => σ v
  | const c => c
  | add a b => a.eval σ + b.eval σ
  | div a d => a.eval σ / d

end Expression

/-- Modelled from the spec: `kiwi::Constraint` is not in `src/`.  "A linear
equality (in this core, exclusively equalities, no inequalities) between
variables and/or literals": the constraint `lhs == rhs`. -/
structure Constraint where
  lhs : Expression
  rhs : Expression
deriving DecidableEq, Repr

namespace Constraint

/-- The variables a constraint references. -/
def vars (c : Constraint) : List Variable := c.lhs.vars ++ c.rhs.vars

/-- Modelled from the spec: `Constraint::involves` is not in `src/`; "the given
constraint references" the variable. -/
def involves (c : Constraint) (v : Variable) : Bool :=
  c.lhs.involves v || c.rhs.involves v

/-- The valuation satisfies the (required) equality. -/
def holds (σ : VarValues) (c : Constraint) : Prop := c.lhs.eval σ = c.rhs.eval σ

instance (σ : VarValues) (c : Constraint) : Decidable (c.holds σ) := by
  unfold holds; infer_instance

end Constraint

/-- The valuation satisfies every constraint of the list. -/
def satisfies (σ : VarValues) (cs : List Constraint) : Prop := ∀ c ∈ cs, c.holds σ

instance (σ : VarValues) (cs : List Constraint) : Decidable (satisfies σ cs) := by
  unfold satisfies; infer_instance

/-! ## Canvas types (`canvas/types.h`, `canvas/item.h`) -/

/-- `ArdourCanvas::Duple`: a point or an extent. -/
structure Duple where
  x : ℚ
  y : ℚ
deriving DecidableEq, Repr

/-- `ArdourCanvas::Rect`: the corners `(x0, y0)` and `(x1, y1)`. -/
structure Rect where
  x0 : ℚ
  y0 : ℚ
  x1 : ℚ
  y1 : ℚ
deriving DecidableEq, Repr

/-- Modelled from the spec: `Rect::width` lives in `canvas/types.h`, which is not
in `src/`; the extent along x, `x1 - x0`. -/
def Rect.width (r : Rect) : ℚ := r.x1 - r.x0

/-- Modelled from the spec: `Rect::height` lives in `canvas/types.h`, which is not
in `src/`; the extent along y, `y1 - y0`. -/
def Rect.height (r : Rect) : ℚ := r.y1 - r.y0

/-- The visual item as this file sees it: its `name`, and the rectangles its
`size_allocate` entry point has been called with, oldest first. -/
structure Item where
  name : String
  allocated : List Rect
deriving DecidableEq, Repr

/-- Modelled from the spec: `Item::size_allocate` lives in `canvas/item.cc`, which
is not in `src/`; the "entry point the entity calls at finalize time".  The call
is recorded. -/
def Item.size_allocate (i : Item) (r : Rect) : Item :=
  { i with allocated := i.allocated ++ [r] }

/-- The packing container handed to `constrained`; the method never looks at it. -/
structure ConstraintPacker where
deriving DecidableEq, Repr

/-- `PackOptions`: the packing policy bits; not interpreted here. -/
abbrev PackOptions := Nat

/-! ## `ConstrainedItem` -/

/-- The data members of `ConstrainedItem`, in declaration order of the
constructor's initialiser list. -/
structure ConstrainedItem where
  _item : Item
  _left : Variable
  _right : Variable
  _top : Variable
  _bottom : Variable
  _width : Variable
  _height : Variable
  _left_padding : Variable
  _right_padding : Variable
  _top_padding : Variable
  _bottom_padding : Variable
  _center_x : Variable
  _center_y : Variable
  _constraints : List Constraint
deriving DecidableEq, Repr

namespace ConstrainedItem

/-- Accessor `left()`. -/
def left (self : ConstrainedItem) : Variable := self._left
/-- Accessor `right()`. -/
def right (self : ConstrainedItem) : Variable := self._right
/-- Accessor `top()`. -/
def top (self : ConstrainedItem) : Variable := self._top
/-- Accessor `bottom()`. -/
def bottom (self : ConstrainedItem) : Variable := self._bottom
/-- Accessor `width()`. -/
def width (self : ConstrainedItem) : Variable := self._width
/-- Accessor `height()`. -/
def height (self : ConstrainedItem) : Variable := self._height
/-- Accessor `center_x()`. -/
def center_x (self : ConstrainedItem) : Variable := self._center_x
/-- Accessor `center_y()`. -/
def center_y (self : ConstrainedItem) : Variable := self._center_y

/-- `_constraints.push_back (c)`: append one constraint to the entity's list. -/
def push_back (self : ConstrainedItem) (c : Constraint) : ConstrainedItem :=
  { self with _constraints := self._constraints ++ [c] }

/-- Constructor `ConstrainedItem::ConstrainedItem (Item& i)`: names the twelve
variables after the item and pushes the four rectangle equalities. -/
def ctor (i : Item) : ConstrainedItem :=
  let self : ConstrainedItem :=
    { _item := i
      _left := ⟨i.name ++ " left"⟩
      _right := ⟨i.name ++ " right"⟩
      _top := ⟨i.name ++ " top"⟩
      _bottom := ⟨i.name ++ " bottom"⟩
      _width := ⟨i.name ++ " width"⟩
      _height := ⟨i.name ++ " height"⟩
      _left_padding := ⟨i.name ++ " left_padding"⟩
      _right_padding := ⟨i.name ++ " right_padding"⟩
      _top_padding := ⟨i.name ++ " top_padding"⟩
      _bottom_padding := ⟨i.name ++ " bottom_padding"⟩
      _center_x := ⟨i.name ++ " center_x"⟩
      _center_y := ⟨i.name ++ " center_y"⟩
      _constraints := [] }
  let self := self.push_back ⟨.var self.center_x, .add (.var self.left) (.div (.var self.width) 2)⟩
  let self := self.push_back ⟨.var self.center_y, .add (.var self.top) (.div (.var self.height) 2)⟩
  let self := self.push_back ⟨.var self._right, .add (.var self._left) (.var self._width)⟩
  let self := self.push_back ⟨.var self._bottom, .add (.var self._top) (.var self._height)⟩
  self

/-- `ConstrainedItem::constrained`: deliver the computed rectangle to the item. -/
def constrained (self : ConstrainedItem) (_parent : ConstraintPacker) (σ : VarValues) :
    ConstrainedItem :=
  let r : Rect := ⟨σ self._left, σ self._top, σ self._right, σ self._bottom⟩
  { self with _item := self._item.size_allocate r }

/-- `ConstrainedItem::involved`. -/
def involved (self : ConstrainedItem) (c : Constraint) : Bool :=
  if c.involves self._left ||
     c.involves self._right ||
     c.involves self._top ||
     c.involves self._bottom ||
     c.involves self._width ||
     c.involves self._height ||
     c.involves self._center_x ||
     c.involves self._center_y then
    true
  else
    false

/-- `ConstrainedItem::dump`: the stream `out` is the text written so far, each
`<<` appends to it; `fmt` is how the stream prints a `double`. -/
def dump (self : ConstrainedItem) (σ : VarValues) (fmt : ℚ → String) (out : String) : String :=
  out ++ self._item.name ++ " value dump:\n"
    ++ "\t" ++ "left: " ++ fmt (σ self._left) ++ "\n"
    ++ "\t" ++ "right: " ++ fmt (σ self._right) ++ "\n"
    ++ "\t" ++ "top: " ++ fmt (σ self._top) ++ "\n"
    ++ "\t" ++ "bottom: " ++ fmt (σ self._bottom) ++ "\n"
    ++ "\t" ++ "width: " ++ fmt (σ self._width) ++ "\n"
    ++ "\t" ++ "height: " ++ fmt (σ self._height) ++ "\n"
    ++ "\t" ++ "right_padding: " ++ fmt (σ self._right_padding) ++ "\n"
    ++ "\t" ++ "left_padding: " ++ fmt (σ self._left_padding) ++ "\n"
    ++ "\t" ++ "top_padding: " ++ fmt (σ self._top_padding) ++ "\n"
    ++ "\t" ++ "bottom_padding: " ++ fmt (σ self._bottom_padding) ++ "\n"
    ++ "\t" ++ "center_x: " ++ fmt (σ self._center_x) ++ "\n"
    ++ "\t" ++ "center_y: " ++ fmt (σ self._center_y) ++ "\n"

/-- `ConstrainedItem::at` (`at` is a reserved word here). -/
def at_ (self : ConstrainedItem) (d : Duple) : ConstrainedItem :=
  let self := self.push_back ⟨.var self._left, .const d.x⟩
  let self := self.push_back ⟨.var self._top, .const d.y⟩
  self

/-- `ConstrainedItem::size`. -/
def size (self : ConstrainedItem) (d : Duple) : ConstrainedItem :=
  let self := self.push_back ⟨.var self._width, .const d.x⟩
  let self := self.push_back ⟨.var self._height, .const d.y⟩
  self

/-- `ConstrainedItem::box`. -/
def box (self : ConstrainedItem) (r : Rect) : ConstrainedItem :=
  let self := self.push_back ⟨.var self._left, .const r.x0⟩
  let self := self.push_back ⟨.var self._top, .const r.y0⟩
  let self := self.push_back ⟨.var self._width, .const r.width⟩
  let self := self.push_back ⟨.var self._height, .const r.height⟩
  self

/-- `ConstrainedItem::left_of`. -/
def left_of (self other : ConstrainedItem) (gap : ℚ) : ConstrainedItem :=
  let self := self.push_back ⟨.var self._right_padding, .const gap⟩
  let self := self.push_back ⟨.var self._right, .add (.var other.left) (.var self._right_padding)⟩
  self

/-- `ConstrainedItem::right_of`. -/
def right_of (self other : ConstrainedItem) (gap : ℚ) : ConstrainedItem :=
  let self := self.push_back ⟨.var self._left_padding, .const gap⟩
  let self := self.push_back ⟨.var self._left, .add (.var other.right) (.var self._left_padding)⟩
  self

/-- `ConstrainedItem::above`. -/
def above (self other : ConstrainedItem) (gap : ℚ) : ConstrainedItem :=
  let self := self.push_back ⟨.var self._bottom_padding, .const gap⟩
  let self := self.push_back ⟨.var self._bottom, .add (.var other.top) (.var self._bottom_padding)⟩
  self

/-- `ConstrainedItem::below`. -/
def below (self other : ConstrainedItem) (gap : ℚ) : ConstrainedItem :=
  let self := self.push_back ⟨.var self._top_padding, .const gap⟩
  let self := self.push_back ⟨.var self._top, .add (.var other.bottom) (.var self._top_padding)⟩
  self

/-- `ConstrainedItem::centered_on`. -/
def centered_on (self other : ConstrainedItem) (xoffset yoffset : ℚ) : ConstrainedItem :=
  let self := self.push_back ⟨.var self._center_x, .add (.var other.center_x) (.const xoffset)⟩
  let self := self.push_back ⟨.var self._center_y, .add (.var other.center_y) (.const yoffset)⟩
  self

/-- `ConstrainedItem::top_aligned_with`. -/
def top_aligned_with (self other : ConstrainedItem) (offset : ℚ) : ConstrainedItem :=
  self.push_back ⟨.var self._top, .add (.var other.top) (.const offset)⟩

/-- `ConstrainedItem::bottom_aligned_with`. -/
def bottom_aligned_with (self other : ConstrainedItem) (offset : ℚ) : ConstrainedItem :=
  self.push_back ⟨.var self._bottom, .add (.var other.bottom) (.const offset)⟩

/-- `ConstrainedItem::left_aligned_with`. -/
def left_aligned_with (self other : ConstrainedItem) (offset : ℚ) : ConstrainedItem :=
  self.push_back ⟨.var self._left, .add (.var other.left) (.const offset)⟩

/-- `ConstrainedItem::right_aligned_with`. -/
def right_aligned_with (self other : ConstrainedItem) (offset : ℚ) : ConstrainedItem :=
  self.push_back ⟨.var self._right, .add (.var other.right) (.const offset)⟩

/-- `ConstrainedItem::same_size_as`. -/
def same_size_as (self other : ConstrainedItem) (wdelta hdelta : ℚ) : ConstrainedItem :=
  let self := self.push_back ⟨.var self._width, .add (.var other.width) (.const wdelta)⟩
  let self := self.push_back ⟨.var self._height, .add (.var other.height) (.const hdelta)⟩
  self

/-- `ConstrainedItem::same_width_as`. -/
def same_width_as (self other : ConstrainedItem) (delta : ℚ) : ConstrainedItem :=
  self.push_back ⟨.var self._width, .add (.var other.width) (.const delta)⟩

/-- `ConstrainedItem::same_height_as`. -/
def same_height_as (self other : ConstrainedItem) (delta : ℚ) : ConstrainedItem :=
  self.push_back ⟨.var self._height, .add (.var other.height) (.const delta)⟩

end ConstrainedItem

/-! ## `BoxConstrainedItem` -/

/-- The data members `BoxConstrainedItem` adds to its base class. -/
structure BoxConstrainedItem extends ConstrainedItem where
  _left_margin : Variable
  _right_margin : Variable
  _top_margin : Variable
  _bottom_margin : Variable
  _primary_axis_pack_options : PackOptions
  _secondary_axis_pack_options : PackOptions
deriving DecidableEq, Repr

namespace BoxConstrainedItem

/-- Constructor `BoxConstrainedItem::BoxConstrainedItem`: the base constructor,
then the four margin variables and the two option values; the body is empty. -/
def ctor (parent : Item) (primary_axis_opts secondary_axis_opts : PackOptions) :
    BoxConstrainedItem :=
  let base := ConstrainedItem.ctor parent
  { toConstrainedItem := base
    _left_margin := ⟨base._item.name ++ " left_margin"⟩
    _right_margin := ⟨base._item.name ++ " right_margin"⟩
    _top_margin := ⟨base._item.name ++ " top_margin"⟩
    _bottom_margin := ⟨base._item.name ++ " bottom_margin"⟩
    _primary_axis_pack_options := primary_axis_opts
    _secondary_axis_pack_options := secondary_axis_opts }

/-- `BoxConstrainedItem::involved`. -/
def involved (self : BoxConstrainedItem) (c : Constraint) : Bool :=
  if self.toConstrainedItem.involved c then
    true
  else if c.involves self._left_margin ||
          c.involves self._right_margin ||
          c.involves self._top_margin ||
          c.involves self._bottom_margin then
    true
  else
    false

/-- `BoxConstrainedItem::dump`. -/
def dump (self : BoxConstrainedItem) (σ : VarValues) (fmt : ℚ → String) (out : String) :
    String :=
  let out := self.toConstrainedItem.dump σ fmt out
  out ++ "\t" ++ "left_margin: " ++ fmt (σ self._left_margin) ++ "\n"
    ++ "\t" ++ "right_margin: " ++ fmt (σ self._right_margin) ++ "\n"
    ++ "\t" ++ "top_margin: " ++ fmt (σ self._top_margin) ++ "\n"
    ++ "\t" ++ "bottom_margin: " ++ fmt (σ self._bottom_margin) ++ "\n"

end BoxConstrainedItem

/-! ## Specification-side vocabulary -/

/-- The four rectangle-identity equalities of the spec's data model, over the
variables of the entity `e`, in the spec's order: `center_x = left + width/2`,
`center_y = top + height/2`, `right = left + width`, `bottom = top + height`. -/
def rectangleIdentities (e : ConstrainedItem) : List Constraint :=
  [ ⟨.var e._center_x, .add (.var e._left) (.div (.var e._width) 2)⟩,
    ⟨.var e._center_y, .add (.var e._top) (.div (.var e._height) 2)⟩,
    ⟨.var e._right, .add (.var e._left) (.var e._width)⟩,
    ⟨.var e._bottom, .add (.var e._top) (.var e._height)⟩ ]

/-- Values for the two-item scene `A.left_of (B, 5)` with `B.left = 100`: the
solution of A's and B's constraints in which every free variable is 0. -/
def leftOfSceneValues : VarValues := fun v =>
  if v.name = "A right_padding" then 5
  else if v.name = "A right" then 105
  else if v.name = "A width" then 105
  else if v.name = "A center_x" then 105 / 2
  else if v.name = "B left" then 100
  else if v.name = "B right" then 100
  else if v.name = "B center_x" then 100
  else 0

/-- Values a solver may leave in the variables of the item named `A`:
`left = 10`, `top = 20`, `right = 110`, `bottom = 70`. -/
def finalizeSceneValues : VarValues := fun v =>
  if v.name = "A left" then 10
  else if v.name = "A top" then 20
  else if v.name = "A right" then 110
  else if v.name = "A bottom" then 70
  else 0

/-- One call of a builder method, with its arguments. -/
inductive BuilderCall where
  | at_ (d : Duple)
  | size (d : Duple)
  | box (r : Rect)
  | left_of (other : ConstrainedItem) (gap : ℚ)
  | right_of (other : ConstrainedItem) (gap : ℚ)
  | above (other : ConstrainedItem) (gap : ℚ)
  | below (other : ConstrainedItem) (gap : ℚ)
  | centered_on (other : ConstrainedItem) (xoffset yoffset : ℚ)
  | top_aligned_with (other : ConstrainedItem) (offset : ℚ)
  | bottom_aligned_with (other : ConstrainedItem) (offset : ℚ)
  | left_aligned_with (other : ConstrainedItem) (offset : ℚ)
  | right_aligned_with (other : ConstrainedItem) (offset : ℚ)
  | same_size_as (other : ConstrainedItem) (wdelta hdelta : ℚ)
  | same_width_as (other : ConstrainedItem) (delta : ℚ)
  | same_height_as (other : ConstrainedItem) (delta : ℚ)
deriving DecidableEq, Repr

/-- Perform one builder call on `self`: dispatch to the method of that name. -/
def BuilderCall.apply (self : ConstrainedItem) : BuilderCall → ConstrainedItem
  | .at_ d => self.at_ d
  | .size d => self.size d
  | .box r => self.box r
  | .left_of other gap => self.left_of other gap
  | .right_of other gap => self.right_of other gap
  | .above other gap => self.above other gap
  | .below other gap => self.below other gap
  | .centered_on other xoffset yoffset => self.centered_on other xoffset yoffset
  | .top_aligned_with other offset => self.top_aligned_with other offset
  | .bottom_aligned_with other offset => self.bottom_aligned_with other offset
  | .left_aligned_with other offset => self.left_aligned_with other offset
  | .right_aligned_with other offset => self.right_aligned_with other offset
  | .same_size_as other wdelta hdelta => self.same_size_as other wdelta hdelta
  | .same_width_as other delta => self.same_width_as other delta
  | .same_height_as other delta => self.same_height_as other delta

/-- Perform a sequence of builder calls on `self`, first call first. -/
def ConstrainedItem.build (self : ConstrainedItem) (calls : List BuilderCall) :
    ConstrainedItem :=
  calls.foldl BuilderCall.apply self

/-- The number of constraints the spec documents for each builder method: 4 for
`box`; 2 for `at`, `size`, `left_of`, `right_of`, `above`, `below`,
`centered_on`, `same_size_as`; 1 for the four `*_aligned_with`, `same_width_as`
and `same_height_as`. -/
def BuilderCall.documentedCount : BuilderCall → Nat
  | .box _ => 4
  | .at_ _ => 2
  | .size _ => 2
  | .left_of _ _ => 2
  | .right_of _ _ => 2
  | .above _ _ => 2
  | .below _ _ => 2
  | .centered_on _ _ _ => 2
  | .same_size_as _ _ _ => 2
  | .top_aligned_with _ _ => 1
  | .bottom_aligned_with _ _ => 1
  | .left_aligned_with _ _ => 1
  | .right_aligned_with _ _ => 1
  | .same_width_as _ _ => 1
  | .same_height_as _ _ => 1

/-! ### Diagnostic output -/

/-- Write labelled value lines to the stream: for each pair of a label and a
variable, a tab, the label, `": "`, the printed value of the variable and a
newline. -/
def writeLabelledLines (σ : VarValues) (fmt : ℚ → String) (out : String)
    (lines : List (String × Variable)) : String :=
  lines.foldl (fun acc l => acc ++ "\t" ++ (l.1 ++ ": ") ++ fmt (σ l.2) ++ "\n") out

/-- The twelve variables with their labels in the order section 3 of the spec
lists them: `left`, `right`, `top`, `bottom`, `width`, `height`, `left_padding`,
`right_padding`, `top_padding`, `bottom_padding`, `center_x`, `center_y`. -/
def section3Order (e : ConstrainedItem) : List (String × Variable) :=
  [ ("left", e._left), ("right", e._right), ("top", e._top), ("bottom", e._bottom),
    ("width", e._width), ("height", e._height),
    ("left_padding", e._left_padding), ("right_padding", e._right_padding),
    ("top_padding", e._top_padding), ("bottom_padding", e._bottom_padding),
    ("center_x", e._center_x), ("center_y", e._center_y) ]

/-- A stream format that tells zero from the other values. -/
def zeroOrOne (q : ℚ) : String := if q = 0 then "0" else "1"

/-- Values in which only the `right_padding` variable of the item named `A` is
not zero. -/
def rightPaddingOnly : VarValues := fun v =>
  if v.name = "A right_padding" then 1 else 0

/-! ### Variable names -/

/-- The role of a variable within its entity: the twelve roles of
`ConstrainedItem` and the four margins of `BoxConstrainedItem`. -/
inductive Role where
  | left | right | top | bottom | width | height
  | left_padding | right_padding | top_padding | bottom_padding
  | center_x | center_y
  | left_margin | right_margin | top_margin | bottom_margin
deriving DecidableEq, Repr

/-- The string literal the constructors append to the item name for each role. -/
def Role.suffix : Role → String
  | .left => " left"
  | .right => " right"
  | .top => " top"
  | .bottom => " bottom"
  | .width => " width"
  | .height => " height"
  | .left_padding => " left_padding"
  | .right_padding => " right_padding"
  | .top_padding => " top_padding"
  | .bottom_padding => " bottom_padding"
  | .center_x => " center_x"
  | .center_y => " center_y"
  | .left_margin => " left_margin"
  | .right_margin => " right_margin"
  | .top_margin => " top_margin"
  | .bottom_margin => " bottom_margin"

/-- The name the constructors give the variable of role `r` of the item named
`itemName`: `_item.name + " <role>"`. -/
def variableName (itemName : String) (r : Role) : String := itemName ++ r.suffix

/-- The twelve roles of the base class, in the order of the initialiser list. -/
def baseRoles : List Role :=
  [ .left, .right, .top, .bottom, .width, .height,
    .left_padding, .right_padding, .top_padding, .bottom_padding, .center_x, .center_y ]

/-- The four margin roles, in the order of the initialiser list. -/
def marginRoles : List Role := [ .left_margin, .right_margin, .top_margin, .bottom_margin ]

/-- The twelve variables an entity owns, in the order of the initialiser list. -/
def ConstrainedItem.ownVars (e : ConstrainedItem) : List Variable :=
  [ e._left, e._right, e._top, e._bottom, e._width, e._height,
    e._left_padding, e._right_padding, e._top_padding, e._bottom_padding,
    e._center_x, e._center_y ]

/-- The sixteen variables a Box entity owns: the twelve of the base class, then
the four margins. -/
def BoxConstrainedItem.ownVars (b : BoxConstrainedItem) : List Variable :=
  b.toConstrainedItem.ownVars ++
    [ b._left_margin, b._right_margin, b._top_margin, b._bottom_margin ]

/-! ### Calls by reference -/

/-- The `other` entity a builder call is given, if it takes one. -/
def BuilderCall.other? : BuilderCall → Option ConstrainedItem
  | .at_ _ => none
  | .size _ => none
  | .box _ => none
  | .left_of other _ => some other
  | .right_of other _ => some other
  | .above other _ => some other
  | .below other _ => some other
  | .centered_on other _ _ => some other
  | .top_aligned_with other _ => some other
  | .bottom_aligned_with other _ => some other
  | .left_aligned_with other _ => some other
  | .right_aligned_with other _ => some other
  | .same_size_as other _ _ => some other
  | .same_width_as other _ => some other
  | .same_height_as other _ => some other

/-- The address of an entity object. -/
abbrev Ref := Nat

/-- The entity objects of a program, by address. -/
abbrev Scene := Ref → ConstrainedItem

/-- A builder method invoked on the object at address `this`: the object is
updated in place and the method returns `*this`, the address it was called on.
The arguments are formed from the scene at the time of the call, so an `other`
passed by reference is read then. -/
def Scene.invoke (sc : Scene) (this : Ref) (args : Scene → BuilderCall) : Scene × Ref :=
  (Function.update sc this ((args sc).apply (sc this)), this)

/-- The chained call `e.at (p).size (s).left_of (other, 4)`: each method is invoked
on the reference the previous one returned. -/
def chainedCalls (sc : Scene) (e other : Ref) (p s : Duple) : Scene × Ref :=
  let r₁ := sc.invoke e (fun _ => .at_ p)
  let r₂ := r₁.1.invoke r₁.2 (fun _ => .size s)
  r₂.1.invoke r₂.2 (fun now => .left_of (now other) 4)

/-- The three sequential calls `e.at (p); e.size (s); e.left_of (other, 4);`: each
method is invoked on `e`, the returned reference is dropped. -/
def sequentialCalls (sc : Scene) (e other : Ref) (p s : Duple) : Scene × Ref :=
  let r₁ := sc.invoke e (fun _ => .at_ p)
  let r₂ := r₁.1.invoke e (fun _ => .size s)
  r₂.1.invoke e (fun now => .left_of (now other) 4)

/-! ### Example scenes -/

/-- A program with two kinds of objects: the entity of the item named `A` at
address 0 and entities of the item named `B` elsewhere. -/
def twoItemScene : Scene := fun r =>
  if r = 0 then ConstrainedItem.ctor ⟨"A", []⟩ else ConstrainedItem.ctor ⟨"B", []⟩

/-- The solution for the item named `A` pinned by `box (Rect (1, 2, 4, 6))`. -/
def boxSceneValues : VarValues := fun v =>
  if v.name = "A left" then 1
  else if v.name = "A top" then 2
  else if v.name = "A width" then 3
  else if v.name = "A height" then 4
  else if v.name = "A right" then 4
  else if v.name = "A bottom" then 6
  else if v.name = "A center_x" then 5 / 2
  else if v.name = "A center_y" then 4
  else 0

/-- A solution of the scene in which `B` is the rectangle `(0, 0, 4, 2)` and `A` is
`centered_on (B, 1, 1)` and `same_size_as (B, 2, 2)`. -/
def centeredSceneValues : VarValues := fun v =>
  if v.name = "B width" then 4
  else if v.name = "B height" then 2
  else if v.name = "B right" then 4
  else if v.name = "B bottom" then 2
  else if v.name = "B center_x" then 2
  else if v.name = "B center_y" then 1
  else if v.name = "A width" then 6
  else if v.name = "A height" then 4
  else if v.name = "A right" then 6
  else if v.name = "A bottom" then 4
  else if v.name = "A center_x" then 3
  else if v.name = "A center_y" then 2
  else 0

/-! ## Auxiliary lemmas -/

theorem satisfies_nil (σ : VarValues) : satisfies σ [] := by
  intro c hc; cases hc

theorem satisfies_cons (σ : VarValues) (c : Constraint) (cs : List Constraint) :
    satisfies σ (c :: cs) ↔ c.holds σ ∧ satisfies σ cs := by
  simp [satisfies]

theorem satisfies_append (σ : VarValues) (cs ds : List Constraint) :
    satisfies σ (cs ++ ds) ↔ satisfies σ cs ∧ satisfies σ ds := by
  simp only [satisfies, List.mem_append]
  constructor
  · intro h
    exact ⟨fun c hc => h c (Or.inl hc), fun c hc => h c (Or.inr hc)⟩
  · rintro ⟨h₁, h₂⟩ c (hc | hc)
    · exact h₁ c hc
    · exact h₂ c hc

/-- Two names built on the same item name agree only if the role suffixes agree. -/
theorem name_append_inj (n a b : String) : n ++ a = n ++ b ↔ a = b := by
  constructor
  · intro h
    have h' := congrArg String.data h
    simp only [String.data_append, List.append_cancel_left_eq] at h'
    exact String.ext h'
  · intro h; rw [h]

/-! ## Construction -/

/-- C1: for every item, the constraint list of a freshly constructed
`ConstrainedItem`, and of a freshly constructed `BoxConstrainedItem`, is exactly
the four rectangle equalities `center_x = left + width/2`,
`center_y = top + height/2`, `right = left + width`, `bottom = top + height`, over
the entity's own variables (the ones named after the item), and nothing else; a
valuation satisfies the list exactly when the four arithmetic identities hold. -/
theorem C1_fresh_constraint_list (i : Item) (p s : PackOptions) (σ : VarValues) :
    (ConstrainedItem.ctor i)._constraints =
        [ ⟨.var ⟨i.name ++ " center_x"⟩,
            .add (.var ⟨i.name ++ " left"⟩) (.div (.var ⟨i.name ++ " width"⟩) 2)⟩,
          ⟨.var ⟨i.name ++ " center_y"⟩,
            .add (.var ⟨i.name ++ " top"⟩) (.div (.var ⟨i.name ++ " height"⟩) 2)⟩,
          ⟨.var ⟨i.name ++ " right"⟩,
            .add (.var ⟨i.name ++ " left"⟩) (.var ⟨i.name ++ " width"⟩)⟩,
          ⟨.var ⟨i.name ++ " bottom"⟩,
            .add (.var ⟨i.name ++ " top"⟩) (.var ⟨i.name ++ " height"⟩)⟩ ]
      ∧ (ConstrainedItem.ctor i)._constraints = rectangleIdentities (ConstrainedItem.ctor i)
      ∧ (BoxConstrainedItem.ctor i p s)._constraints =
          rectangleIdentities (BoxConstrainedItem.ctor i p s).toConstrainedItem
      ∧ (BoxConstrainedItem.ctor i p s).toConstrainedItem = ConstrainedItem.ctor i
      ∧ (ConstrainedItem.ctor i)._constraints.length = 4
      ∧ (satisfies σ (ConstrainedItem.ctor i)._constraints ↔
          σ (ConstrainedItem.ctor i).center_x =
              σ (ConstrainedItem.ctor i).left + σ (ConstrainedItem.ctor i).width / 2
            ∧ σ (ConstrainedItem.ctor i).center_y =
              σ (ConstrainedItem.ctor i).top + σ (ConstrainedItem.ctor i).height / 2
            ∧ σ (ConstrainedItem.ctor i).right =
              σ (ConstrainedItem.ctor i).left + σ (ConstrainedItem.ctor i).width
            ∧ σ (ConstrainedItem.ctor i).bottom =
              σ (ConstrainedItem.ctor i).top + σ (ConstrainedItem.ctor i).height) := by
  refine ⟨rfl, rfl, rfl, rfl, rfl, ?_⟩
  simp [ConstrainedItem.ctor, ConstrainedItem.push_back, satisfies, Constraint.holds,
    Expression.eval, ConstrainedItem.center_x, ConstrainedItem.center_y, ConstrainedItem.left,
    ConstrainedItem.right, ConstrainedItem.top, ConstrainedItem.bottom, ConstrainedItem.width,
    ConstrainedItem.height]

/-! ## Relative placement: `left_of`, `right_of`, `above`, `below` -/

/-- C2: for every entity state, every other entity and every gap `g`,
`left_of (other, g)` appends exactly `right_padding = g` and
`right = other.left + right_padding`, in that order; `right_of` appends
`left_padding = g` and `left = other.right + left_padding`; `above` appends
`bottom_padding = g` and `bottom = other.top + bottom_padding`; `below` appends
`top_padding = g` and `top = other.bottom + top_padding`.  A valuation satisfies
an appended pair exactly when the padding variable equals `g` and the constrained
edge equals the other entity's edge plus `g`; so `A.left_of (B, 5)` with
`B.left = 100` forces `A.right = 105`. -/
theorem C2_relative_placement_appends (self other : ConstrainedItem) (g : ℚ) (σ : VarValues) :
    ((self.left_of other g)._constraints = self._constraints ++
        [ ⟨.var self._right_padding, .const g⟩,
          ⟨.var self._right, .add (.var other._left) (.var self._right_padding)⟩ ]
      ∧ (self.right_of other g)._constraints = self._constraints ++
        [ ⟨.var self._left_padding, .const g⟩,
          ⟨.var self._left, .add (.var other._right) (.var self._left_padding)⟩ ]
      ∧ (self.above other g)._constraints = self._constraints ++
        [ ⟨.var self._bottom_padding, .const g⟩,
          ⟨.var self._bottom, .add (.var other._top) (.var self._bottom_padding)⟩ ]
      ∧ (self.below other g)._constraints = self._constraints ++
        [ ⟨.var self._top_padding, .const g⟩,
          ⟨.var self._top, .add (.var other._bottom) (.var self._top_padding)⟩ ])
    ∧ ((satisfies σ ((self.left_of other g)._constraints.drop self._constraints.length) ↔
          σ self._right_padding = g ∧ σ self._right = σ other._left + g)
      ∧ (satisfies σ ((self.right_of other g)._constraints.drop self._constraints.length) ↔
          σ self._left_padding = g ∧ σ self._left = σ other._right + g)
      ∧ (satisfies σ ((self.above other g)._constraints.drop self._constraints.length) ↔
          σ self._bottom_padding = g ∧ σ self._bottom = σ other._top + g)
      ∧ (satisfies σ ((self.below other g)._constraints.drop self._constraints.length) ↔
          σ self._top_padding = g ∧ σ self._top = σ other._bottom + g))
    ∧ (satisfies σ ((self.left_of other 5)._constraints.drop self._constraints.length) →
        σ other._left = 100 → σ self._right = 105) := by
  have key : ∀ (p e f : Variable) (x : ℚ),
      (satisfies σ [⟨.var p, .const x⟩, ⟨.var e, .add (.var f) (.var p)⟩] ↔
        σ p = x ∧ σ e = σ f + x) := by
    intro p e f x
    simp only [satisfies_cons, Constraint.holds, Expression.eval]
    constructor
    · rintro ⟨h₁, h₂, -⟩
      exact ⟨h₁, by rw [h₂, h₁]⟩
    · rintro ⟨h₁, h₂⟩
      exact ⟨h₁, by rw [h₂, h₁], satisfies_nil σ⟩
  have hl : ∀ x : ℚ, (self.left_of other x)._constraints.drop self._constraints.length =
      [ ⟨.var self._right_padding, .const x⟩,
        ⟨.var self._right, .add (.var other._left) (.var self._right_padding)⟩ ] := by
    intro x
    simp [ConstrainedItem.left_of, ConstrainedItem.push_back, ConstrainedItem.left]
  have hr : (self.right_of other g)._constraints.drop self._constraints.length =
      [ ⟨.var self._left_padding, .const g⟩,
        ⟨.var self._left, .add (.var other._right) (.var self._left_padding)⟩ ] := by
    simp [ConstrainedItem.right_of, ConstrainedItem.push_back, ConstrainedItem.right]
  have ha : (self.above other g)._constraints.drop self._constraints.length =
      [ ⟨.var self._bottom_padding, .const g⟩,
        ⟨.var self._bottom, .add (.var other._top) (.var self._bottom_padding)⟩ ] := by
    simp [ConstrainedItem.above, ConstrainedItem.push_back, ConstrainedItem.top]
  have hb : (self.below other g)._constraints.drop self._constraints.length =
      [ ⟨.var self._top_padding, .const g⟩,
        ⟨.var self._top, .add (.var other._bottom) (.var self._top_padding)⟩ ] := by
    simp [ConstrainedItem.below, ConstrainedItem.push_back, ConstrainedItem.bottom]
  refine ⟨⟨?_, ?_, ?_, ?_⟩, ⟨?_, ?_, ?_, ?_⟩, ?_⟩
  · simp [ConstrainedItem.left_of, ConstrainedItem.push_back, ConstrainedItem.left]
  · simp [ConstrainedItem.right_of, ConstrainedItem.push_back, ConstrainedItem.right]
  · simp [ConstrainedItem.above, ConstrainedItem.push_back, ConstrainedItem.top]
  · simp [ConstrainedItem.below, ConstrainedItem.push_back, ConstrainedItem.bottom]
  · rw [hl g]; exact key _ _ _ _
  · rw [hr]; exact key _ _ _ _
  · rw [ha]; exact key _ _ _ _
  · rw [hb]; exact key _ _ _ _
  · intro h h100
    rw [hl 5] at h
    have h' := ((key _ _ _ _).1 h).2
    rw [h', h100]; norm_num

/-- Witness for C2 at the scene `A.left_of (B, 5)`, `B.left = 100`: the appended
pair is satisfied by `leftOfSceneValues`, and `A.right` is 105 there. -/
theorem C2_relative_placement_appends_witness :
    satisfies leftOfSceneValues
        (((ConstrainedItem.ctor ⟨"A", []⟩).left_of (ConstrainedItem.ctor ⟨"B", []⟩) 5)._constraints.drop
          (ConstrainedItem.ctor ⟨"A", []⟩)._constraints.length)
      ∧ leftOfSceneValues (ConstrainedItem.ctor ⟨"B", []⟩)._left = 100
      ∧ leftOfSceneValues (ConstrainedItem.ctor ⟨"A", []⟩)._right = 105 := by
  have hs : satisfies leftOfSceneValues
      (((ConstrainedItem.ctor ⟨"A", []⟩).left_of (ConstrainedItem.ctor ⟨"B", []⟩) 5)._constraints.drop
        (ConstrainedItem.ctor ⟨"A", []⟩)._constraints.length) := by
    simp [ConstrainedItem.ctor, ConstrainedItem.left_of, ConstrainedItem.push_back,
      ConstrainedItem.left, satisfies, Constraint.holds, Expression.eval, leftOfSceneValues]
    norm_num
  have hB : leftOfSceneValues (ConstrainedItem.ctor ⟨"B", []⟩)._left = 100 := by
    simp [ConstrainedItem.ctor, ConstrainedItem.push_back, leftOfSceneValues]
  exact ⟨hs, hB,
    (C2_relative_placement_appends (ConstrainedItem.ctor ⟨"A", []⟩)
      (ConstrainedItem.ctor ⟨"B", []⟩) 5 leftOfSceneValues).2.2 hs hB⟩

/-- C3 (the code at the failing input): in the scene `A.left_of (B, 5)` the
valuation `leftOfSceneValues` satisfies every constraint of A and of B, has
`B.left = 100`, and gives `A.right = 105`: A's right edge lies 5 after B's left
edge, not 5 before it (95). -/
theorem C3_left_of_right_edge_after :
    satisfies leftOfSceneValues
        ((ConstrainedItem.ctor ⟨"A", []⟩).left_of (ConstrainedItem.ctor ⟨"B", []⟩) 5)._constraints
      ∧ satisfies leftOfSceneValues (ConstrainedItem.ctor ⟨"B", []⟩)._constraints
      ∧ leftOfSceneValues (ConstrainedItem.ctor ⟨"B", []⟩).left = 100
      ∧ leftOfSceneValues (ConstrainedItem.ctor ⟨"A", []⟩).right = 105
      ∧ leftOfSceneValues (ConstrainedItem.ctor ⟨"A", []⟩).right ≠
          leftOfSceneValues (ConstrainedItem.ctor ⟨"B", []⟩).left - 5 := by
  refine ⟨?_, ?_, ?_, ?_, ?_⟩
  · simp [ConstrainedItem.ctor, ConstrainedItem.left_of, ConstrainedItem.push_back,
      ConstrainedItem.left, ConstrainedItem.center_x, ConstrainedItem.center_y,
      ConstrainedItem.top, ConstrainedItem.width, ConstrainedItem.height,
      satisfies, Constraint.holds, Expression.eval, leftOfSceneValues]
    norm_num
  · simp [ConstrainedItem.ctor, ConstrainedItem.push_back,
      ConstrainedItem.left, ConstrainedItem.center_x, ConstrainedItem.center_y,
      ConstrainedItem.top, ConstrainedItem.width, ConstrainedItem.height,
      satisfies, Constraint.holds, Expression.eval, leftOfSceneValues]
  · simp [ConstrainedItem.ctor, ConstrainedItem.push_back, ConstrainedItem.left,
      leftOfSceneValues]
  · simp [ConstrainedItem.ctor, ConstrainedItem.push_back, ConstrainedItem.right,
      leftOfSceneValues]
  · simp [ConstrainedItem.ctor, ConstrainedItem.push_back, ConstrainedItem.left,
      ConstrainedItem.right, leftOfSceneValues]
    norm_num

/-! ## Attribution: `involved` -/

theorem expression_involves_iff_mem_vars (e : Expression) (v : Variable) :
    e.involves v = true ↔ v ∈ e.vars := by
  induction e with
  | var w => simp [Expression.involves, Expression.vars, eq_comm]
  | const c => simp [Expression.involves, Expression.vars]
  | add a b iha ihb => simp [Expression.involves, Expression.vars, iha, ihb]
  | div a d iha => simp [Expression.involves, Expression.vars, iha]

theorem constraint_involves_iff_mem_vars (c : Constraint) (v : Variable) :
    c.involves v = true ↔ v ∈ c.vars := by
  simp [Constraint.involves, Constraint.vars, expression_involves_iff_mem_vars]

/-- C4 (the code at the failing input): for every item and gap, the first
constraint `left_of` appends, `right_padding = gap`, references the
`right_padding` variable of the entity and no other variable, is in the list of
the entity, and `ConstrainedItem::involved` answers false for it: the base check
looks at eight of the twelve variables and skips the four padding variables. -/
theorem C4_involved_skips_padding (i : Item) (other : ConstrainedItem) (g : ℚ) :
    (⟨.var (ConstrainedItem.ctor i)._right_padding, .const g⟩ : Constraint) ∈
        ((ConstrainedItem.ctor i).left_of other g)._constraints
      ∧ (⟨.var (ConstrainedItem.ctor i)._right_padding, .const g⟩ : Constraint).vars =
          [(ConstrainedItem.ctor i)._right_padding]
      ∧ (⟨.var (ConstrainedItem.ctor i)._right_padding, .const g⟩ : Constraint).involves
          (ConstrainedItem.ctor i)._right_padding = true
      ∧ (ConstrainedItem.ctor i).involved
          ⟨.var (ConstrainedItem.ctor i)._right_padding, .const g⟩ = false
      ∧ (ConstrainedItem.ctor i).involved
          ⟨.var (ConstrainedItem.ctor i)._left_padding, .const g⟩ = false
      ∧ (ConstrainedItem.ctor i).involved
          ⟨.var (ConstrainedItem.ctor i)._top_padding, .const g⟩ = false
      ∧ (ConstrainedItem.ctor i).involved
          ⟨.var (ConstrainedItem.ctor i)._bottom_padding, .const g⟩ = false := by
  refine ⟨?_, ?_, ?_, ?_, ?_, ?_, ?_⟩
  · simp [ConstrainedItem.left_of, ConstrainedItem.push_back]
  · simp [Constraint.vars, Expression.vars]
  · simp [Constraint.involves, Expression.involves]
  all_goals
    simp [ConstrainedItem.involved, ConstrainedItem.ctor, ConstrainedItem.push_back,
      Constraint.involves, Expression.involves, name_append_inj]

theorem box_involved_of_left_margin (b : BoxConstrainedItem) (c : Constraint)
    (h : c.involves b._left_margin = true) : b.involved c = true := by
  unfold BoxConstrainedItem.involved
  cases hb : b.toConstrainedItem.involved c <;> simp [h]

/-- C5: for every `BoxConstrainedItem` `b` and constraint `c`, `b.involved (c)` is
true if and only if the base-class check is true or `c` references one of the
four margin variables of `b`.  Hence whatever the base check reports, the Box
check reports too; and for a constructed Box entity a constraint that references
its `left_margin` and nothing else is involved by the Box check and not by the
base check. -/
theorem C5_box_involved_iff (b : BoxConstrainedItem) (c : Constraint)
    (i : Item) (p s : PackOptions) :
    (b.involved c = true ↔
        b.toConstrainedItem.involved c = true
          ∨ c.involves b._left_margin = true ∨ c.involves b._right_margin = true
          ∨ c.involves b._top_margin = true ∨ c.involves b._bottom_margin = true)
      ∧ (b.toConstrainedItem.involved c = true → b.involved c = true)
      ∧ (c.vars ≠ [] → (∀ v ∈ c.vars, v = (BoxConstrainedItem.ctor i p s)._left_margin) →
          (BoxConstrainedItem.ctor i p s).involved c = true
            ∧ (BoxConstrainedItem.ctor i p s).toConstrainedItem.involved c = false) := by
  have hiff : b.involved c = true ↔
      b.toConstrainedItem.involved c = true
        ∨ c.involves b._left_margin = true ∨ c.involves b._right_margin = true
        ∨ c.involves b._top_margin = true ∨ c.involves b._bottom_margin = true := by
    unfold BoxConstrainedItem.involved
    cases hb : b.toConstrainedItem.involved c <;> simp [or_assoc]
  refine ⟨hiff, fun h => hiff.2 (Or.inl h), ?_⟩
  intro hne hall
  have hmem : (BoxConstrainedItem.ctor i p s)._left_margin ∈ c.vars := by
    obtain ⟨v, hv⟩ := List.exists_mem_of_ne_nil _ hne
    rw [← hall v hv]; exact hv
  have hbase : (BoxConstrainedItem.ctor i p s).toConstrainedItem.involved c = false := by
    have hno : ∀ w : Variable, w ≠ (BoxConstrainedItem.ctor i p s)._left_margin →
        c.involves w = false := by
      intro w hw
      cases hc : c.involves w
      · rfl
      · exact absurd (hall w ((constraint_involves_iff_mem_vars c w).1 hc)) hw
    unfold ConstrainedItem.involved
    rw [hno _ (by simp [BoxConstrainedItem.ctor, ConstrainedItem.ctor,
          ConstrainedItem.push_back, name_append_inj]),
      hno _ (by simp [BoxConstrainedItem.ctor, ConstrainedItem.ctor,
          ConstrainedItem.push_back, name_append_inj]),
      hno _ (by simp [BoxConstrainedItem.ctor, ConstrainedItem.ctor,
          ConstrainedItem.push_back, name_append_inj]),
      hno _ (by simp [BoxConstrainedItem.ctor, ConstrainedItem.ctor,
          ConstrainedItem.push_back, name_append_inj]),
      hno _ (by simp [BoxConstrainedItem.ctor, ConstrainedItem.ctor,
          ConstrainedItem.push_back, name_append_inj]),
      hno _ (by simp [BoxConstrainedItem.ctor, ConstrainedItem.ctor,
          ConstrainedItem.push_back, name_append_inj]),
      hno _ (by simp [BoxConstrainedItem.ctor, ConstrainedItem.ctor,
          ConstrainedItem.push_back, name_append_inj]),
      hno _ (by simp [BoxConstrainedItem.ctor, ConstrainedItem.ctor,
          ConstrainedItem.push_back, name_append_inj])]
    rfl
  refine ⟨?_, hbase⟩
  exact (box_involved_of_left_margin _ c ((constraint_involves_iff_mem_vars c _).2 hmem))

/-- Witness for C5: the Box entity of the item named `A` and the constraint
`left_margin = 0`. -/
theorem C5_box_involved_iff_witness :
    (⟨.var ⟨"A left_margin"⟩, .const 0⟩ : Constraint).vars ≠ []
      ∧ (∀ v ∈ (⟨.var ⟨"A left_margin"⟩, .const 0⟩ : Constraint).vars,
          v = (BoxConstrainedItem.ctor ⟨"A", []⟩ 0 0)._left_margin)
      ∧ (BoxConstrainedItem.ctor ⟨"A", []⟩ 0 0).involved ⟨.var ⟨"A left_margin"⟩, .const 0⟩ = true
      ∧ (BoxConstrainedItem.ctor ⟨"A", []⟩ 0 0).toConstrainedItem.involved
          ⟨.var ⟨"A left_margin"⟩, .const 0⟩ = false :=
  have h₁ : (⟨.var ⟨"A left_margin"⟩, .const 0⟩ : Constraint).vars ≠ [] := by
    simp [Constraint.vars, Expression.vars]
  have h₂ : ∀ v ∈ (⟨.var ⟨"A left_margin"⟩, .const 0⟩ : Constraint).vars,
      v = (BoxConstrainedItem.ctor ⟨"A", []⟩ 0 0)._left_margin := by
    simp [Constraint.vars, Expression.vars, BoxConstrainedItem.ctor, ConstrainedItem.ctor,
      ConstrainedItem.push_back]
  ⟨h₁, h₂,
    (C5_box_involved_iff (BoxConstrainedItem.ctor ⟨"A", []⟩ 0 0)
      ⟨.var ⟨"A left_margin"⟩, .const 0⟩ ⟨"A", []⟩ 0 0).2.2 h₁ h₂⟩

/-! ## Finalize: `constrained` -/

/-- C6: for every entity and every values of its `left`, `top`, `right` and
`bottom` variables, `constrained (packer)` calls `size_allocate` of the owned
item exactly once, with the rectangle `(left, top, right, bottom)` built from
those values unchanged, and leaves the constraint list, the variables and the
item name as they were; with `left = 10`, `top = 20`, `right = 110`,
`bottom = 70` the item receives `(10, 20, 110, 70)`. -/
theorem C6_constrained_delivers_rect (e : ConstrainedItem) (packer : ConstraintPacker)
    (σ : VarValues) :
    (e.constrained packer σ)._item.allocated =
        e._item.allocated ++ [⟨σ e._left, σ e._top, σ e._right, σ e._bottom⟩]
      ∧ (e.constrained packer σ)._item.allocated.length = e._item.allocated.length + 1
      ∧ (e.constrained packer σ)._constraints = e._constraints
      ∧ e.constrained packer σ =
          { e with _item := e._item.size_allocate ⟨σ e.left, σ e.top, σ e.right, σ e.bottom⟩ }
      ∧ (σ e._left = 10 → σ e._top = 20 → σ e._right = 110 → σ e._bottom = 70 →
          (e.constrained packer σ)._item.allocated = e._item.allocated ++ [⟨10, 20, 110, 70⟩]) := by
  refine ⟨rfl, ?_, rfl, rfl, ?_⟩
  · simp [ConstrainedItem.constrained, Item.size_allocate]
  · intro hl ht hr hb
    simp [ConstrainedItem.constrained, Item.size_allocate, hl, ht, hr, hb]

/-- Witness for C6: a fresh entity on the item named `A` and the values
`finalizeSceneValues`. -/
theorem C6_constrained_delivers_rect_witness :
    finalizeSceneValues (ConstrainedItem.ctor ⟨"A", []⟩)._left = 10
      ∧ finalizeSceneValues (ConstrainedItem.ctor ⟨"A", []⟩)._top = 20
      ∧ finalizeSceneValues (ConstrainedItem.ctor ⟨"A", []⟩)._right = 110
      ∧ finalizeSceneValues (ConstrainedItem.ctor ⟨"A", []⟩)._bottom = 70
      ∧ ((ConstrainedItem.ctor ⟨"A", []⟩).constrained ⟨⟩ finalizeSceneValues)._item.allocated =
          (ConstrainedItem.ctor ⟨"A", []⟩)._item.allocated ++ [⟨10, 20, 110, 70⟩] :=
  have hl : finalizeSceneValues (ConstrainedItem.ctor ⟨"A", []⟩)._left = 10 := by
    simp [ConstrainedItem.ctor, ConstrainedItem.push_back, finalizeSceneValues]
  have ht : finalizeSceneValues (ConstrainedItem.ctor ⟨"A", []⟩)._top = 20 := by
    simp [ConstrainedItem.ctor, ConstrainedItem.push_back, finalizeSceneValues]
  have hr : finalizeSceneValues (ConstrainedItem.ctor ⟨"A", []⟩)._right = 110 := by
    simp [ConstrainedItem.ctor, ConstrainedItem.push_back, finalizeSceneValues]
  have hb : finalizeSceneValues (ConstrainedItem.ctor ⟨"A", []⟩)._bottom = 70 := by
    simp [ConstrainedItem.ctor, ConstrainedItem.push_back, finalizeSceneValues]
  ⟨hl, ht, hr, hb,
    (C6_constrained_delivers_rect (ConstrainedItem.ctor ⟨"A", []⟩) ⟨⟩
      finalizeSceneValues).2.2.2.2 hl ht hr hb⟩

/-! ## Builder methods -/

/-- Every builder call leaves the item and the twelve variables alone and extends
the constraint list by as many entries as documented. -/
theorem builder_call_frame (self : ConstrainedItem) (call : BuilderCall) :
    ∃ added : List Constraint, added.length = call.documentedCount
      ∧ call.apply self = { self with _constraints := self._constraints ++ added } := by
  refine ⟨(call.apply self)._constraints.drop self._constraints.length, ?_, ?_⟩ <;>
    cases call <;>
      simp [BuilderCall.apply, BuilderCall.documentedCount, ConstrainedItem.at_,
        ConstrainedItem.size, ConstrainedItem.box,
        ConstrainedItem.left_of, ConstrainedItem.right_of, ConstrainedItem.above,
        ConstrainedItem.below, ConstrainedItem.centered_on, ConstrainedItem.top_aligned_with,
        ConstrainedItem.bottom_aligned_with, ConstrainedItem.left_aligned_with,
        ConstrainedItem.right_aligned_with, ConstrainedItem.same_size_as,
        ConstrainedItem.same_width_as, ConstrainedItem.same_height_as,
        ConstrainedItem.push_back]

/-- C7: for every entity state and every argument values, each builder method
returns an entity whose constraint list is the previous list followed by exactly
`k` new entries, the previous entries unchanged and in the same order, where
`k = 4` for `box`; `k = 2` for `at`, `size`, `left_of`, `right_of`, `above`,
`below`, `centered_on` and `same_size_as`; `k = 1` for the four `*_aligned_with`,
`same_width_as` and `same_height_as`. -/
theorem C7_builders_are_additive (self : ConstrainedItem) (call : BuilderCall) :
    (∃ added : List Constraint, added.length = call.documentedCount
        ∧ (call.apply self)._constraints = self._constraints ++ added)
      ∧ (call.apply self)._constraints.length =
          self._constraints.length + call.documentedCount
      ∧ (call.apply self)._constraints.take self._constraints.length = self._constraints
      ∧ (∀ (k : Nat) (h : k < self._constraints.length),
          (call.apply self)._constraints[k]? = some (self._constraints.get ⟨k, h⟩)) := by
  obtain ⟨added, hlen, heq⟩ := builder_call_frame self call
  have hcs : (call.apply self)._constraints = self._constraints ++ added := by rw [heq]
  refine ⟨⟨added, hlen, hcs⟩, ?_, ?_, ?_⟩
  · rw [hcs, List.length_append, hlen]
  · rw [hcs, List.take_left]
  · intro k h
    rw [hcs, List.getElem?_append_left h]
    simp

/-- Witness for C7: `box` on a fresh entity; the four construction entries stay
at positions 0 to 3. -/
theorem C7_builders_are_additive_witness :
    ((BuilderCall.box ⟨1, 2, 4, 6⟩).apply (ConstrainedItem.ctor ⟨"A", []⟩))._constraints[3]? =
      some ((ConstrainedItem.ctor ⟨"A", []⟩)._constraints.get ⟨3, by decide⟩) :=
  (C7_builders_are_additive (ConstrainedItem.ctor ⟨"A", []⟩) (.box ⟨1, 2, 4, 6⟩)).2.2.2 3
    (by decide)

/-- C9: for every entity state, point `p`, extent `s` and rectangle `r`: `at (p)`
appends exactly `left = p.x` and `top = p.y`; `size (s)` appends exactly
`width = s.x` and `height = s.y`; `box (r)` appends exactly `left = r.x0`,
`top = r.y0`, `width = r.width ()` and `height = r.height ()`; each in that order,
the literals taken unchanged from the argument. -/
theorem C9_literal_pins (self : ConstrainedItem) (p s : Duple) (r : Rect) :
    (self.at_ p)._constraints = self._constraints ++
        [ ⟨.var self._left, .const p.x⟩, ⟨.var self._top, .const p.y⟩ ]
      ∧ (self.size s)._constraints = self._constraints ++
        [ ⟨.var self._width, .const s.x⟩, ⟨.var self._height, .const s.y⟩ ]
      ∧ (self.box r)._constraints = self._constraints ++
        [ ⟨.var self._left, .const r.x0⟩, ⟨.var self._top, .const r.y0⟩,
          ⟨.var self._width, .const r.width⟩, ⟨.var self._height, .const r.height⟩ ] := by
  refine ⟨?_, ?_, ?_⟩
  · simp [ConstrainedItem.at_, ConstrainedItem.push_back]
  · simp [ConstrainedItem.size, ConstrainedItem.push_back]
  · simp [ConstrainedItem.box, ConstrainedItem.push_back]

/-- C10: for every entity state, other entity and signed offsets (zero included):
`centered_on (other, dx, dy)` appends exactly `center_x = other.center_x + dx` and
`center_y = other.center_y + dy`; each `*_aligned_with (other, off)` appends
exactly the one equality `edge = other.edge + off` for the edge of that name;
`same_size_as (other, dw, dh)` appends exactly `width = other.width + dw` and
`height = other.height + dh`; `same_width_as` and `same_height_as` append exactly
`width = other.width + d` and `height = other.height + d`.  The left-hand variable
is the one of `self`, the right-hand variable the same-role variable of `other`. -/
theorem C10_relational_builders (self other : ConstrainedItem) (dx dy off dw dh d : ℚ) :
    (self.centered_on other dx dy)._constraints = self._constraints ++
        [ ⟨.var self._center_x, .add (.var other._center_x) (.const dx)⟩,
          ⟨.var self._center_y, .add (.var other._center_y) (.const dy)⟩ ]
      ∧ (self.top_aligned_with other off)._constraints = self._constraints ++
        [ ⟨.var self._top, .add (.var other._top) (.const off)⟩ ]
      ∧ (self.bottom_aligned_with other off)._constraints = self._constraints ++
        [ ⟨.var self._bottom, .add (.var other._bottom) (.const off)⟩ ]
      ∧ (self.left_aligned_with other off)._constraints = self._constraints ++
        [ ⟨.var self._left, .add (.var other._left) (.const off)⟩ ]
      ∧ (self.right_aligned_with other off)._constraints = self._constraints ++
        [ ⟨.var self._right, .add (.var other._right) (.const off)⟩ ]
      ∧ (self.same_size_as other dw dh)._constraints = self._constraints ++
        [ ⟨.var self._width, .add (.var other._width) (.const dw)⟩,
          ⟨.var self._height, .add (.var other._height) (.const dh)⟩ ]
      ∧ (self.same_width_as other d)._constraints = self._constraints ++
        [ ⟨.var self._width, .add (.var other._width) (.const d)⟩ ]
      ∧ (self.same_height_as other d)._constraints = self._constraints ++
        [ ⟨.var self._height, .add (.var other._height) (.const d)⟩ ] := by
  refine ⟨?_, rfl, rfl, rfl, rfl, ?_, rfl, rfl⟩
  · simp [ConstrainedItem.centered_on, ConstrainedItem.push_back, ConstrainedItem.center_x,
      ConstrainedItem.center_y]
  · simp [ConstrainedItem.same_size_as, ConstrainedItem.push_back, ConstrainedItem.width,
      ConstrainedItem.height]

/-! ## The construction equalities under builder calls -/

/-- The four construction equalities of a constructed entity are pairwise
different constraints. -/
theorem rectangleIdentities_nodup (i : Item) :
    (rectangleIdentities (ConstrainedItem.ctor i)).Nodup := by
  simp [rectangleIdentities, ConstrainedItem.ctor, ConstrainedItem.push_back, name_append_inj]

/-- On an entity that carries the variables of `ctor i`, no builder call appends
a constraint equal to one of the four construction equalities. -/
theorem builder_call_appends_no_identity (i : Item) (cs : List Constraint)
    (call : BuilderCall) :
    ∀ c ∈ (call.apply { ConstrainedItem.ctor i with _constraints := cs })._constraints.drop
        cs.length,
      c ∉ rectangleIdentities (ConstrainedItem.ctor i) := by
  cases call <;>
    simp [BuilderCall.apply, ConstrainedItem.at_,
      ConstrainedItem.size, ConstrainedItem.box,
      ConstrainedItem.left_of, ConstrainedItem.right_of, ConstrainedItem.above,
      ConstrainedItem.below, ConstrainedItem.centered_on, ConstrainedItem.top_aligned_with,
      ConstrainedItem.bottom_aligned_with, ConstrainedItem.left_aligned_with,
      ConstrainedItem.right_aligned_with, ConstrainedItem.same_size_as,
      ConstrainedItem.same_width_as, ConstrainedItem.same_height_as,
      ConstrainedItem.push_back, rectangleIdentities, ConstrainedItem.ctor, name_append_inj]

/-- After any sequence of builder calls a constructed entity still has its item
and variables, and its list is the four construction equalities followed by
constraints that are none of the four. -/
theorem build_keeps_identities_first (i : Item) (calls : List BuilderCall) :
    ∃ extra : List Constraint,
      (ConstrainedItem.ctor i).build calls =
          { ConstrainedItem.ctor i with
            _constraints := rectangleIdentities (ConstrainedItem.ctor i) ++ extra }
        ∧ ∀ c ∈ extra, c ∉ rectangleIdentities (ConstrainedItem.ctor i) := by
  induction calls using List.reverseRecOn with
  | nil => exact ⟨[], by simp [ConstrainedItem.build]; rfl, by simp⟩
  | append_singleton calls call ih =>
    obtain ⟨extra, he, hx⟩ := ih
    obtain ⟨added, -, ha⟩ := builder_call_frame ((ConstrainedItem.ctor i).build calls) call
    have hstep : (ConstrainedItem.ctor i).build (calls ++ [call]) =
        call.apply ((ConstrainedItem.ctor i).build calls) := by
      simp [ConstrainedItem.build, List.foldl_append]
    have hnot := builder_call_appends_no_identity i
      (rectangleIdentities (ConstrainedItem.ctor i) ++ extra) call
    rw [← he, ha] at hnot
    have hcs : ((ConstrainedItem.ctor i).build calls)._constraints =
        rectangleIdentities (ConstrainedItem.ctor i) ++ extra := by rw [he]
    refine ⟨extra ++ added, ?_, ?_⟩
    · rw [hstep, ha, he, List.append_assoc]
    · intro c hc
      rcases List.mem_append.1 hc with h | h
      · exact hx c h
      · apply hnot c
        simp only [hcs, List.drop_left]
        exact h

/-- C8: for every constructed entity and every finite sequence of builder calls
with arbitrary arguments (the `other` of a call may be any entity value, the
entity itself included), the resulting constraint list has the four structural
equalities `center_x = left + width/2`, `center_y = top + height/2`,
`right = left + width`, `bottom = top + height` as its first four entries, each
of them occurs exactly once in the whole list, and they are still the equalities
over the variables of the resulting entity; the base part of a Box entity behaves
the same, being the entity the base constructor builds. -/
theorem C8_structural_equalities_kept (i : Item) (p s : PackOptions)
    (calls : List BuilderCall) :
    ((ConstrainedItem.ctor i).build calls)._constraints.take 4 =
        rectangleIdentities (ConstrainedItem.ctor i)
      ∧ (BoxConstrainedItem.ctor i p s).toConstrainedItem.build calls =
          (ConstrainedItem.ctor i).build calls
      ∧ (rectangleIdentities (ConstrainedItem.ctor i)).map
          (fun c => ((ConstrainedItem.ctor i).build calls)._constraints.count c) = [1, 1, 1, 1]
      ∧ rectangleIdentities ((ConstrainedItem.ctor i).build calls) =
          rectangleIdentities (ConstrainedItem.ctor i) := by
  obtain ⟨extra, he, hx⟩ := build_keeps_identities_first i calls
  have hcount : ∀ c ∈ rectangleIdentities (ConstrainedItem.ctor i),
      (rectangleIdentities (ConstrainedItem.ctor i) ++ extra).count c = 1 := by
    intro c hc
    rw [List.count_append, List.count_eq_one_of_mem (rectangleIdentities_nodup i) hc,
      List.count_eq_zero_of_not_mem (fun h => hx c h hc)]
  refine ⟨?_, rfl, ?_, ?_⟩
  · rw [he]; simp [rectangleIdentities]
  · rw [he]
    show List.map (fun c => (rectangleIdentities (ConstrainedItem.ctor i) ++ extra).count c)
      (rectangleIdentities (ConstrainedItem.ctor i)) = [1, 1, 1, 1]
    rw [List.map_congr_left (fun c hc => hcount c hc)]
    simp [rectangleIdentities]
  · rw [he]; rfl

/-! ## Diagnostic output: `dump` -/

/-- C11 (as the claim states it, refuted): for the entity of the item named `A`,
with `right_padding = 1` and every other variable 0, the output of `dump` is not
the header followed by the twelve labelled lines in the order of section 3. -/
theorem C11_dump_not_in_section3_order :
    (ConstrainedItem.ctor ⟨"A", []⟩).dump rightPaddingOnly zeroOrOne "" ≠
      writeLabelledLines rightPaddingOnly zeroOrOne ("" ++ "A" ++ " value dump:\n")
        (section3Order (ConstrainedItem.ctor ⟨"A", []⟩)) := by
  simp [ConstrainedItem.dump, ConstrainedItem.ctor, ConstrainedItem.push_back,
    writeLabelledLines, section3Order, rightPaddingOnly, zeroOrOne]

/-- C11 (amended): for every base entity, `dump` emits the header
`<item name> value dump:` and then exactly twelve labelled value lines whose
labels, in output order, are `left`, `right`, `top`, `bottom`, `width`, `height`,
`right_padding`, `left_padding`, `top_padding`, `bottom_padding`, `center_x`,
`center_y` (`right_padding` before `left_padding`), each line carrying the
current value of the variable of that name. -/
theorem C11_dump_lines (e : ConstrainedItem) (σ : VarValues) (fmt : ℚ → String)
    (out : String) :
    e.dump σ fmt out =
        writeLabelledLines σ fmt (out ++ e._item.name ++ " value dump:\n")
          [ ("left", e._left), ("right", e._right), ("top", e._top), ("bottom", e._bottom),
            ("width", e._width), ("height", e._height),
            ("right_padding", e._right_padding), ("left_padding", e._left_padding),
            ("top_padding", e._top_padding), ("bottom_padding", e._bottom_padding),
            ("center_x", e._center_x), ("center_y", e._center_y) ]
      ∧ [ ("left", e._left), ("right", e._right), ("top", e._top), ("bottom", e._bottom),
          ("width", e._width), ("height", e._height),
          ("right_padding", e._right_padding), ("left_padding", e._left_padding),
          ("top_padding", e._top_padding), ("bottom_padding", e._bottom_padding),
          ("center_x", e._center_x), ("center_y", e._center_y) ].length = 12 := by
  refine ⟨?_, rfl⟩
  simp [ConstrainedItem.dump, writeLabelledLines]

/-- C12: for every `BoxConstrainedItem`, the output of `dump` is the output of
the base-class `dump` for the same entity followed by four labelled lines, in the
order `left_margin`, `right_margin`, `top_margin`, `bottom_margin`, each carrying
the value of the margin variable of that name; so the output has the header and
sixteen labelled value lines, the last four being the margins. -/
theorem C12_box_dump_lines (b : BoxConstrainedItem) (σ : VarValues) (fmt : ℚ → String)
    (out : String) :
    b.dump σ fmt out =
        writeLabelledLines σ fmt (b.toConstrainedItem.dump σ fmt out)
          [ ("left_margin", b._left_margin), ("right_margin", b._right_margin),
            ("top_margin", b._top_margin), ("bottom_margin", b._bottom_margin) ]
      ∧ (∃ base : List (String × Variable), base.length = 12
          ∧ b.toConstrainedItem.dump σ fmt out =
              writeLabelledLines σ fmt (out ++ b._item.name ++ " value dump:\n") base
          ∧ b.dump σ fmt out =
              writeLabelledLines σ fmt (out ++ b._item.name ++ " value dump:\n")
                (base ++ [ ("left_margin", b._left_margin), ("right_margin", b._right_margin),
                  ("top_margin", b._top_margin), ("bottom_margin", b._bottom_margin) ])
          ∧ (base ++ [ ("left_margin", b._left_margin), ("right_margin", b._right_margin),
              ("top_margin", b._top_margin), ("bottom_margin", b._bottom_margin) ]).length
                = 16) := by
  have h₁ : b.dump σ fmt out =
      writeLabelledLines σ fmt (b.toConstrainedItem.dump σ fmt out)
        [ ("left_margin", b._left_margin), ("right_margin", b._right_margin),
          ("top_margin", b._top_margin), ("bottom_margin", b._bottom_margin) ] := by
    simp [BoxConstrainedItem.dump, writeLabelledLines]
  refine ⟨h₁, [ ("left", b._left), ("right", b._right), ("top", b._top), ("bottom", b._bottom),
      ("width", b._width), ("height", b._height),
      ("right_padding", b._right_padding), ("left_padding", b._left_padding),
      ("top_padding", b._top_padding), ("bottom_padding", b._bottom_padding),
      ("center_x", b._center_x), ("center_y", b._center_y) ], rfl, ?_, ?_, rfl⟩
  · simp [ConstrainedItem.dump, writeLabelledLines]
  · rw [h₁]
    simp [ConstrainedItem.dump, writeLabelledLines]

/-! ## Variable names -/

/-- A text is cut in one way only at a blank that is followed by no other blank. -/
theorem split_at_blank (a b x y : List Char) (ha : ' ' ∉ a) (hb : ' ' ∉ b)
    (h : a ++ ' ' :: x = b ++ ' ' :: y) : a = b ∧ x = y := by
  induction a generalizing b with
  | nil =>
    cases b with
    | nil => simpa using h
    | cons d b =>
      simp only [List.nil_append, List.cons_append, List.cons.injEq] at h
      exact absurd (by rw [← h.1]; exact List.mem_cons_self _ _) hb
  | cons c a ih =>
    cases b with
    | nil =>
      simp only [List.nil_append, List.cons_append, List.cons.injEq] at h
      exact absurd (by rw [h.1]; exact List.mem_cons_self _ _) ha
    | cons d b =>
      simp only [List.cons_append, List.cons.injEq] at h
      have ha' : ' ' ∉ a := fun hm => ha (List.mem_cons_of_mem _ hm)
      have hb' : ' ' ∉ b := fun hm => hb (List.mem_cons_of_mem _ hm)
      obtain ⟨hab, hxy⟩ := ih b ha' hb' h.2
      exact ⟨by rw [h.1, hab], hxy⟩

/-- Every role suffix is a blank followed by a word without blanks. -/
theorem role_suffix_shape (r : Role) :
    ∃ word : List Char, r.suffix.data = ' ' :: word ∧ ' ' ∉ word := by
  cases r <;> exact ⟨_, rfl, by decide⟩

/-- Different roles have different suffixes. -/
theorem role_suffix_inj (r₁ r₂ : Role) (h : r₁.suffix = r₂.suffix) : r₁ = r₂ := by
  cases r₁ <;> cases r₂ <;> first | rfl | (exact absurd h (by decide))

/-- A variable name determines the item name and the role it was built from. -/
theorem variableName_inj (n₁ n₂ : String) (r₁ r₂ : Role)
    (h : variableName n₁ r₁ = variableName n₂ r₂) : n₁ = n₂ ∧ r₁ = r₂ := by
  obtain ⟨w₁, hw₁, hs₁⟩ := role_suffix_shape r₁
  obtain ⟨w₂, hw₂, hs₂⟩ := role_suffix_shape r₂
  have hd := congrArg (fun t : String => t.data.reverse) h
  simp only [variableName, String.data_append, hw₁, hw₂, List.reverse_append,
    List.reverse_cons, List.append_assoc, List.singleton_append] at hd
  obtain ⟨hw, hn⟩ := split_at_blank _ _ _ _ (by simpa using hs₁) (by simpa using hs₂) hd
  have hw' : w₁ = w₂ := List.reverse_injective hw
  have hn' : n₁.data = n₂.data := List.reverse_injective hn
  refine ⟨String.ext hn', role_suffix_inj r₁ r₂ (String.ext ?_)⟩
  rw [hw₁, hw₂, hw']

/-- The variable of a role of one item is not a variable of an item with
another name. -/
theorem variable_ne_of_item_ne (n₁ n₂ : String) (r₁ r₂ : Role) (h : n₁ ≠ n₂) :
    (⟨variableName n₁ r₁⟩ : Variable) ≠ ⟨variableName n₂ r₂⟩ :=
  fun he => h (variableName_inj n₁ n₂ r₁ r₂ (Variable.mk.inj he)).1

/-- The variables of a constructed Box entity are the sixteen role names built on
the item name. -/
theorem box_ownVars_eq (i : Item) (p s : PackOptions) :
    (BoxConstrainedItem.ctor i p s).ownVars =
      (baseRoles ++ marginRoles).map (fun r => (⟨variableName i.name r⟩ : Variable)) := rfl

/-- C16: variable names are unique.  The name built from an item name and a role
(item name, a blank, the role) determines both, for arbitrary item names: two
such names are equal only if the item names are equal and the roles are equal.
So the twelve variables of a constructed entity (sixteen for Box) are pairwise
distinct, and two entities built on items with different names share no
variable. -/
theorem C16_variable_names_unique (n₁ n₂ : String) (r₁ r₂ : Role) (i j : Item)
    (p s q t : PackOptions) :
    (variableName n₁ r₁ = variableName n₂ r₂ ↔ n₁ = n₂ ∧ r₁ = r₂)
      ∧ (ConstrainedItem.ctor i).ownVars =
          baseRoles.map (fun r => (⟨variableName i.name r⟩ : Variable))
      ∧ (BoxConstrainedItem.ctor i p s).ownVars =
          (baseRoles ++ marginRoles).map (fun r => (⟨variableName i.name r⟩ : Variable))
      ∧ (ConstrainedItem.ctor i).ownVars.Nodup
      ∧ (BoxConstrainedItem.ctor i p s).ownVars.Nodup
      ∧ (i.name ≠ j.name →
          ∀ v ∈ (BoxConstrainedItem.ctor i p s).ownVars,
            v ∉ (BoxConstrainedItem.ctor j q t).ownVars) := by
  have hinj : Function.Injective (fun r => (⟨variableName i.name r⟩ : Variable)) := by
    intro a b hab
    exact (variableName_inj _ _ a b (Variable.mk.inj hab)).2
  have hbox : (BoxConstrainedItem.ctor i p s).ownVars.Nodup := by
    rw [box_ownVars_eq]
    exact List.Nodup.map hinj (by decide)
  refine ⟨⟨variableName_inj n₁ n₂ r₁ r₂, ?_⟩, rfl, rfl, ?_, hbox, ?_⟩
  · rintro ⟨rfl, rfl⟩; rfl
  · have hb : (ConstrainedItem.ctor i).ownVars =
        baseRoles.map (fun r => (⟨variableName i.name r⟩ : Variable)) := rfl
    rw [hb]
    exact List.Nodup.map hinj (by decide)
  · intro hne v hv hv'
    rw [box_ownVars_eq] at hv hv'
    obtain ⟨a, -, rfl⟩ := List.mem_map.1 hv
    obtain ⟨b, -, hb⟩ := List.mem_map.1 hv'
    exact variable_ne_of_item_ne _ _ b a (Ne.symm hne) hb

/-- Witness for C16: the Box entities of the items named `A` and `B` share no
variable. -/
theorem C16_variable_names_unique_witness :
    (⟨"A", []⟩ : Item).name ≠ (⟨"B", []⟩ : Item).name
      ∧ ∀ v ∈ (BoxConstrainedItem.ctor ⟨"A", []⟩ 0 0).ownVars,
          v ∉ (BoxConstrainedItem.ctor ⟨"B", []⟩ 0 0).ownVars :=
  ⟨by decide,
    (C16_variable_names_unique "A" "B" .left .left ⟨"A", []⟩ ⟨"B", []⟩ 0 0 0 0).2.2.2.2.2
      (by decide)⟩

/-- C13: for entities `e` and `e2` built on items with different names and every
constraint `c` that references the `width` variable of `e` and no other variable,
`e.involved (c)` is true and `e2.involved (c)` is false. -/
theorem C13_involved_width_only (i j : Item) (c : Constraint) (hne : i.name ≠ j.name)
    (hc : c.vars ≠ []) (honly : ∀ v ∈ c.vars, v = (ConstrainedItem.ctor i).width) :
    (ConstrainedItem.ctor i).involved c = true
      ∧ (ConstrainedItem.ctor j).involved c = false := by
  have hmem : (ConstrainedItem.ctor i).width ∈ c.vars := by
    obtain ⟨v, hv⟩ := List.exists_mem_of_ne_nil _ hc
    rw [← honly v hv]; exact hv
  have hw : c.involves (ConstrainedItem.ctor i)._width = true :=
    (constraint_involves_iff_mem_vars c _).2 hmem
  have hno : ∀ r : Role, c.involves ⟨variableName j.name r⟩ = false := by
    intro r
    cases h : c.involves ⟨variableName j.name r⟩
    · rfl
    · exact absurd (honly _ ((constraint_involves_iff_mem_vars c _).1 h))
        (variable_ne_of_item_ne j.name i.name r .width (Ne.symm hne))
  constructor
  · unfold ConstrainedItem.involved
    simp [hw]
  · have h₁ := hno .left
    have h₂ := hno .right
    have h₃ := hno .top
    have h₄ := hno .bottom
    have h₅ := hno .width
    have h₆ := hno .height
    have h₇ := hno .center_x
    have h₈ := hno .center_y
    simp only [variableName, Role.suffix] at h₁ h₂ h₃ h₄ h₅ h₆ h₇ h₈
    simp [ConstrainedItem.involved, ConstrainedItem.ctor, ConstrainedItem.push_back,
      h₁, h₂, h₃, h₄, h₅, h₆, h₇, h₈]

/-- Witness for C13: the items named `A` and `B` and the constraint
`A width = 3`. -/
theorem C13_involved_width_only_witness :
    (ConstrainedItem.ctor ⟨"A", []⟩).involved ⟨.var ⟨"A width"⟩, .const 3⟩ = true
      ∧ (ConstrainedItem.ctor ⟨"B", []⟩).involved ⟨.var ⟨"A width"⟩, .const 3⟩ = false :=
  C13_involved_width_only ⟨"A", []⟩ ⟨"B", []⟩ ⟨.var ⟨"A width"⟩, .const 3⟩ (by decide)
    (by simp [Constraint.vars, Expression.vars])
    (by simp [Constraint.vars, Expression.vars, ConstrainedItem.ctor,
      ConstrainedItem.push_back, ConstrainedItem.width])

/-! ## Locality and attribution of the appended constraints -/

/-- On any entity, every constraint a builder call appends mentions only
variables of the entity and of the `other` argument, and mentions a variable of
the entity. -/
theorem builder_call_local (self : ConstrainedItem) (call : BuilderCall) :
    ∀ c ∈ (call.apply self)._constraints.drop self._constraints.length,
      (∀ v ∈ c.vars, v ∈ self.ownVars ∨ ∃ o, call.other? = some o ∧ v ∈ o.ownVars)
        ∧ ∃ v ∈ c.vars, v ∈ self.ownVars := by
  cases call <;>
    simp [BuilderCall.apply, BuilderCall.other?, ConstrainedItem.at_,
      ConstrainedItem.size, ConstrainedItem.box,
      ConstrainedItem.left_of, ConstrainedItem.right_of, ConstrainedItem.above,
      ConstrainedItem.below, ConstrainedItem.centered_on, ConstrainedItem.top_aligned_with,
      ConstrainedItem.bottom_aligned_with, ConstrainedItem.left_aligned_with,
      ConstrainedItem.right_aligned_with, ConstrainedItem.same_size_as,
      ConstrainedItem.same_width_as, ConstrainedItem.same_height_as,
      ConstrainedItem.push_back, ConstrainedItem.ownVars, Constraint.vars, Expression.vars,
      ConstrainedItem.left, ConstrainedItem.right, ConstrainedItem.top, ConstrainedItem.bottom,
      ConstrainedItem.width, ConstrainedItem.height, ConstrainedItem.center_x,
      ConstrainedItem.center_y]

/-- A sequence of builder calls keeps the item and the variables, and if every
constraint of the list mentioned a variable of the entity before, so it does
afterwards. -/
theorem build_touches_self (self : ConstrainedItem) (calls : List BuilderCall)
    (h : ∀ c ∈ self._constraints, ∃ v ∈ c.vars, v ∈ self.ownVars) :
    ∃ cs : List Constraint, self.build calls = { self with _constraints := cs }
      ∧ ∀ c ∈ cs, ∃ v ∈ c.vars, v ∈ self.ownVars := by
  induction calls using List.reverseRecOn with
  | nil => exact ⟨self._constraints, rfl, h⟩
  | append_singleton calls call ih =>
    obtain ⟨cs, he, hcs⟩ := ih
    obtain ⟨added, -, ha⟩ := builder_call_frame (self.build calls) call
    have hstep : self.build (calls ++ [call]) = call.apply (self.build calls) := by
      simp [ConstrainedItem.build, List.foldl_append]
    have hloc := builder_call_local (self.build calls) call
    have hlist : (self.build calls)._constraints = cs := by rw [he]
    have hown : (self.build calls).ownVars = self.ownVars := by rw [he]; rfl
    refine ⟨cs ++ added, ?_, ?_⟩
    · rw [hstep, ha, he]
    · intro c hc
      rcases List.mem_append.1 hc with hc | hc
      · exact hcs c hc
      · have hd : c ∈ (call.apply (self.build calls))._constraints.drop
            (self.build calls)._constraints.length := by
          rw [ha]; simp only [List.drop_left]; exact hc
        rw [← hown]
        exact (hloc c hd).2

/-- C14: for every entity `self` and every builder call, each constraint the call
appends references only variables owned by `self` or by the `other` entity passed
as argument (only variables of `self` for `at`, `size` and `box`, which take no
other entity), never a variable of a third entity; and after construction and any
sequence of builder calls every constraint of the list references at least one
variable of the entity. -/
theorem C14_constraints_stay_local (self : ConstrainedItem) (call : BuilderCall)
    (i : Item) (calls : List BuilderCall) :
    (∀ c ∈ (call.apply self)._constraints.drop self._constraints.length,
        ∀ v ∈ c.vars, v ∈ self.ownVars ∨ ∃ o, call.other? = some o ∧ v ∈ o.ownVars)
      ∧ (∀ c ∈ ((ConstrainedItem.ctor i).build calls)._constraints,
          ∃ v ∈ c.vars, v ∈ ((ConstrainedItem.ctor i).build calls).ownVars)
      ∧ ((ConstrainedItem.ctor i).build calls).ownVars = (ConstrainedItem.ctor i).ownVars := by
  have h0 : ∀ c ∈ (ConstrainedItem.ctor i)._constraints,
      ∃ v ∈ c.vars, v ∈ (ConstrainedItem.ctor i).ownVars := by
    simp [ConstrainedItem.ctor, ConstrainedItem.push_back, ConstrainedItem.ownVars,
      Constraint.vars, Expression.vars, ConstrainedItem.center_x, ConstrainedItem.center_y,
      ConstrainedItem.left, ConstrainedItem.top, ConstrainedItem.width, ConstrainedItem.height]
  obtain ⟨cs, he, hcs⟩ := build_touches_self (ConstrainedItem.ctor i) calls h0
  have hown : ((ConstrainedItem.ctor i).build calls).ownVars =
      (ConstrainedItem.ctor i).ownVars := by rw [he]; rfl
  refine ⟨fun c hc => (builder_call_local self call c hc).1, ?_, hown⟩
  intro c hc
  rw [hown]
  apply hcs c
  rw [he] at hc
  exact hc

/-- Witness for C14: the pin `right_padding = 5` that `A.left_of (B, 5)` appends
mentions a variable of `A`. -/
theorem C14_constraints_stay_local_witness :
    (⟨"A right_padding"⟩ : Variable) ∈ (ConstrainedItem.ctor ⟨"A", []⟩).ownVars
      ∨ ∃ o, (BuilderCall.left_of (ConstrainedItem.ctor ⟨"B", []⟩) 5).other? = some o
          ∧ (⟨"A right_padding"⟩ : Variable) ∈ o.ownVars :=
  (C14_constraints_stay_local (ConstrainedItem.ctor ⟨"A", []⟩)
    (.left_of (ConstrainedItem.ctor ⟨"B", []⟩) 5) ⟨"A", []⟩ []).1
    ⟨.var ⟨"A right_padding"⟩, .const 5⟩
    (by simp [BuilderCall.apply, ConstrainedItem.left_of, ConstrainedItem.push_back,
      ConstrainedItem.ctor])
    ⟨"A right_padding"⟩
    (by simp [Constraint.vars, Expression.vars])

/-- C15 (the code at the failing input): for every item, other entity and gap,
after one call of `left_of`, `right_of`, `above` or `below` on the constructed
entity its list holds the pin `padding = gap` of that side, and
`ConstrainedItem::involved` answers false for that constraint: the entity does not
recognise a constraint of its own list. -/
theorem C15_own_padding_pin_not_involved (i : Item) (other : ConstrainedItem) (g : ℚ) :
    ((⟨.var (ConstrainedItem.ctor i)._right_padding, .const g⟩ : Constraint) ∈
          ((ConstrainedItem.ctor i).build [.left_of other g])._constraints
        ∧ ((ConstrainedItem.ctor i).build [.left_of other g]).involved
            ⟨.var (ConstrainedItem.ctor i)._right_padding, .const g⟩ = false)
      ∧ ((⟨.var (ConstrainedItem.ctor i)._left_padding, .const g⟩ : Constraint) ∈
          ((ConstrainedItem.ctor i).build [.right_of other g])._constraints
        ∧ ((ConstrainedItem.ctor i).build [.right_of other g]).involved
            ⟨.var (ConstrainedItem.ctor i)._left_padding, .const g⟩ = false)
      ∧ ((⟨.var (ConstrainedItem.ctor i)._bottom_padding, .const g⟩ : Constraint) ∈
          ((ConstrainedItem.ctor i).build [.above other g])._constraints
        ∧ ((ConstrainedItem.ctor i).build [.above other g]).involved
            ⟨.var (ConstrainedItem.ctor i)._bottom_padding, .const g⟩ = false)
      ∧ ((⟨.var (ConstrainedItem.ctor i)._top_padding, .const g⟩ : Constraint) ∈
          ((ConstrainedItem.ctor i).build [.below other g])._constraints
        ∧ ((ConstrainedItem.ctor i).build [.below other g]).involved
            ⟨.var (ConstrainedItem.ctor i)._top_padding, .const g⟩ = false) := by
  refine ⟨⟨?_, ?_⟩, ⟨?_, ?_⟩, ⟨?_, ?_⟩, ⟨?_, ?_⟩⟩ <;>
    simp [ConstrainedItem.build, BuilderCall.apply, ConstrainedItem.left_of,
      ConstrainedItem.right_of, ConstrainedItem.above, ConstrainedItem.below,
      ConstrainedItem.involved, ConstrainedItem.ctor, ConstrainedItem.push_back,
      Constraint.involves, Expression.involves, name_append_inj]

/-! ## Chaining -/

/-- C17: every builder method returns the very entity it was called on, so the
chained call `e.at (p).size (s).left_of (other, 4)` leaves the program in the same
state as the three sequential calls `e.at (p); e.size (s); e.left_of (other, 4)`
(also when `other` is `e` itself): the value the chain returns is `e`, the list of
`e` is its previous list followed by the six constraints of the three calls, and
no other object changes. -/
theorem C17_chain_is_sequence (sc : Scene) (e other : Ref) (p s : Duple)
    (args : Scene → BuilderCall) (x : Ref) :
    (sc.invoke e args).2 = e
      ∧ chainedCalls sc e other p s = sequentialCalls sc e other p s
      ∧ (chainedCalls sc e other p s).2 = e
      ∧ ((chainedCalls sc e other p s).1 e)._constraints = (sc e)._constraints ++
          [ ⟨.var (sc e)._left, .const p.x⟩, ⟨.var (sc e)._top, .const p.y⟩,
            ⟨.var (sc e)._width, .const s.x⟩, ⟨.var (sc e)._height, .const s.y⟩,
            ⟨.var (sc e)._right_padding, .const 4⟩,
            ⟨.var (sc e)._right, .add (.var (sc other)._left) (.var (sc e)._right_padding)⟩ ]
      ∧ (chainedCalls sc e other p s).1 e = (((sc e).at_ p).size s).left_of (sc other) 4
      ∧ (x ≠ e → (chainedCalls sc e other p s).1 x = sc x) := by
  have hleft : ∀ v : ConstrainedItem, v._left = (sc e)._left →
      (Function.update sc e v other)._left = (sc other)._left := by
    intro v hv
    by_cases h : other = e
    · subst h; simp [hv]
    · simp [Function.update_noteq h]
  refine ⟨rfl, rfl, rfl, ?_, ?_, ?_⟩
  · simp [chainedCalls, Scene.invoke, BuilderCall.apply, ConstrainedItem.at_,
      ConstrainedItem.size, ConstrainedItem.left_of, ConstrainedItem.push_back,
      ConstrainedItem.left]
    exact hleft _ rfl
  · simp [chainedCalls, Scene.invoke, BuilderCall.apply, ConstrainedItem.left_of,
      ConstrainedItem.push_back, ConstrainedItem.left]
    exact hleft _ rfl
  · intro hx
    simp [chainedCalls, Scene.invoke, Function.update_noteq hx]

/-- Witness for C17: in `twoItemScene` the chain on the object at address 0
leaves the object at address 1 alone. -/
theorem C17_chain_is_sequence_witness :
    (chainedCalls twoItemScene 0 1 ⟨1, 2⟩ ⟨3, 4⟩).1 1 = twoItemScene 1 :=
  (C17_chain_is_sequence twoItemScene 0 1 ⟨1, 2⟩ ⟨3, 4⟩ (fun _ => .at_ ⟨0, 0⟩) 1).2.2.2.2.2
    (by decide)

/-! ## Solutions of the accumulated constraints -/

/-- What a solution of a fresh entity pinned by `box (r)` looks like. -/
theorem box_solution (i : Item) (r : Rect) (σ : VarValues)
    (h : satisfies σ ((ConstrainedItem.ctor i).box r)._constraints) :
    σ (ConstrainedItem.ctor i)._left = r.x0 ∧ σ (ConstrainedItem.ctor i)._top = r.y0
      ∧ σ (ConstrainedItem.ctor i)._right = r.x1 ∧ σ (ConstrainedItem.ctor i)._bottom = r.y1
      ∧ σ (ConstrainedItem.ctor i)._width = r.x1 - r.x0
      ∧ σ (ConstrainedItem.ctor i)._height = r.y1 - r.y0
      ∧ σ (ConstrainedItem.ctor i)._center_x = r.x0 + (r.x1 - r.x0) / 2
      ∧ σ (ConstrainedItem.ctor i)._center_y = r.y0 + (r.y1 - r.y0) / 2 := by
  simp only [ConstrainedItem.ctor, ConstrainedItem.box, ConstrainedItem.push_back,
    ConstrainedItem.center_x, ConstrainedItem.center_y, ConstrainedItem.left,
    ConstrainedItem.top, ConstrainedItem.width, ConstrainedItem.height,
    List.nil_append, List.cons_append, satisfies_cons, Constraint.holds, Expression.eval,
    Rect.width, Rect.height] at h
  obtain ⟨hcx, hcy, hr, hb, hl, ht, hw, hh, -⟩ := h
  refine ⟨hl, ht, ?_, ?_, hw, hh, ?_, ?_⟩
  · show σ ⟨i.name ++ " right"⟩ = r.x1
    rw [hr, hl, hw]; ring
  · show σ ⟨i.name ++ " bottom"⟩ = r.y1
    rw [hb, ht, hh]; ring
  · show σ ⟨i.name ++ " center_x"⟩ = r.x0 + (r.x1 - r.x0) / 2
    rw [hcx, hl, hw]
  · show σ ⟨i.name ++ " center_y"⟩ = r.y0 + (r.y1 - r.y0) / 2
    rw [hcy, ht, hh]

/-- C18: round trip box, solve, finalize.  For every rectangle `r` (with
`r.width () = r.x1 - r.x0` and `r.height () = r.y1 - r.y0`, exact arithmetic) and
every valuation that satisfies the list of a fresh entity after `box (r)`, the
rectangle `constrained` delivers to the item, `(left, top, right, bottom)`, is `r`
itself; the values of `width`, `height`, `center_x` and `center_y` are determined
too, so any two solutions agree on them. -/
theorem C18_box_round_trip (i : Item) (r : Rect) (packer : ConstraintPacker)
    (σ τ : VarValues)
    (hσ : satisfies σ ((ConstrainedItem.ctor i).box r)._constraints)
    (hτ : satisfies τ ((ConstrainedItem.ctor i).box r)._constraints) :
    (((ConstrainedItem.ctor i).box r).constrained packer σ)._item.allocated =
        i.allocated ++ [r]
      ∧ (⟨σ (ConstrainedItem.ctor i).left, σ (ConstrainedItem.ctor i).top,
          σ (ConstrainedItem.ctor i).right, σ (ConstrainedItem.ctor i).bottom⟩ : Rect) = r
      ∧ σ (ConstrainedItem.ctor i).width = r.x1 - r.x0
      ∧ σ (ConstrainedItem.ctor i).height = r.y1 - r.y0
      ∧ σ (ConstrainedItem.ctor i).center_x = r.x0 + (r.x1 - r.x0) / 2
      ∧ σ (ConstrainedItem.ctor i).center_y = r.y0 + (r.y1 - r.y0) / 2
      ∧ τ (ConstrainedItem.ctor i).width = σ (ConstrainedItem.ctor i).width
      ∧ τ (ConstrainedItem.ctor i).height = σ (ConstrainedItem.ctor i).height
      ∧ τ (ConstrainedItem.ctor i).center_x = σ (ConstrainedItem.ctor i).center_x
      ∧ τ (ConstrainedItem.ctor i).center_y = σ (ConstrainedItem.ctor i).center_y := by
  obtain ⟨hl, ht, hr, hb, hw, hh, hcx, hcy⟩ := box_solution i r σ hσ
  obtain ⟨-, -, -, -, hw', hh', hcx', hcy'⟩ := box_solution i r τ hτ
  have hrect : (⟨σ (ConstrainedItem.ctor i)._left, σ (ConstrainedItem.ctor i)._top,
      σ (ConstrainedItem.ctor i)._right, σ (ConstrainedItem.ctor i)._bottom⟩ : Rect) = r := by
    rw [hl, ht, hr, hb]
  refine ⟨?_, hrect, hw, hh, hcx, hcy, ?_, ?_, ?_, ?_⟩
  · show i.allocated ++ [(⟨σ (ConstrainedItem.ctor i)._left, σ (ConstrainedItem.ctor i)._top,
      σ (ConstrainedItem.ctor i)._right, σ (ConstrainedItem.ctor i)._bottom⟩ : Rect)] = _
    rw [hrect]
  · exact hw'.trans hw.symm
  · exact hh'.trans hh.symm
  · exact hcx'.trans hcx.symm
  · exact hcy'.trans hcy.symm

/-- Witness for C18: the item named `A`, the rectangle `(1, 2, 4, 6)` and the
solution `boxSceneValues`. -/
theorem C18_box_round_trip_witness :
    satisfies boxSceneValues ((ConstrainedItem.ctor ⟨"A", []⟩).box ⟨1, 2, 4, 6⟩)._constraints
      ∧ (((ConstrainedItem.ctor ⟨"A", []⟩).box ⟨1, 2, 4, 6⟩).constrained ⟨⟩
          boxSceneValues)._item.allocated = [] ++ [⟨1, 2, 4, 6⟩] :=
  have h : satisfies boxSceneValues
      ((ConstrainedItem.ctor ⟨"A", []⟩).box ⟨1, 2, 4, 6⟩)._constraints := by
    simp [ConstrainedItem.ctor, ConstrainedItem.box, ConstrainedItem.push_back,
      ConstrainedItem.center_x, ConstrainedItem.center_y, ConstrainedItem.left,
      ConstrainedItem.top, ConstrainedItem.width, ConstrainedItem.height,
      satisfies, Constraint.holds, Expression.eval, Rect.width, Rect.height, boxSceneValues]
    norm_num
  ⟨h, (C18_box_round_trip ⟨"A", []⟩ ⟨1, 2, 4, 6⟩ ⟨⟩ boxSceneValues boxSceneValues h h).1⟩

/-- C19: builders never override an earlier pin, and an entity has one padding
variable per side.  For every entity `A`, entities `B` and `C` and gaps
`g₁ ≠ g₂`, the list after `A.left_of (B, g₁).left_of (C, g₂)` has no solution (it
asks for `right_padding = g₁` and `right_padding = g₂`); and for points `p ≠ q`
the list after `A.at (p).at (q)` has no solution; every constraint being a
required equality. -/
theorem C19_conflicting_pins_unsatisfiable (A B C : ConstrainedItem) (g₁ g₂ : ℚ)
    (p q : Duple) (hg : g₁ ≠ g₂) (hp : p ≠ q) :
    (¬ ∃ σ : VarValues, satisfies σ ((A.left_of B g₁).left_of C g₂)._constraints)
      ∧ (¬ ∃ σ : VarValues, satisfies σ ((A.at_ p).at_ q)._constraints)
      ∧ (⟨.var A._right_padding, .const g₁⟩ : Constraint) ∈
          ((A.left_of B g₁).left_of C g₂)._constraints
      ∧ (⟨.var A._right_padding, .const g₂⟩ : Constraint) ∈
          ((A.left_of B g₁).left_of C g₂)._constraints := by
  refine ⟨?_, ?_, ?_, ?_⟩
  · rintro ⟨σ, h⟩
    have h₁ : σ A._right_padding = g₁ :=
      h ⟨.var A._right_padding, .const g₁⟩
        (by simp [ConstrainedItem.left_of, ConstrainedItem.push_back])
    have h₂ : σ A._right_padding = g₂ :=
      h ⟨.var A._right_padding, .const g₂⟩
        (by simp [ConstrainedItem.left_of, ConstrainedItem.push_back])
    exact hg (h₁.symm.trans h₂)
  · rintro ⟨σ, h⟩
    have hx₁ : σ A._left = p.x :=
      h ⟨.var A._left, .const p.x⟩ (by simp [ConstrainedItem.at_, ConstrainedItem.push_back])
    have hx₂ : σ A._left = q.x :=
      h ⟨.var A._left, .const q.x⟩ (by simp [ConstrainedItem.at_, ConstrainedItem.push_back])
    have hy₁ : σ A._top = p.y :=
      h ⟨.var A._top, .const p.y⟩ (by simp [ConstrainedItem.at_, ConstrainedItem.push_back])
    have hy₂ : σ A._top = q.y :=
      h ⟨.var A._top, .const q.y⟩ (by simp [ConstrainedItem.at_, ConstrainedItem.push_back])
    apply hp
    cases p; cases q
    simp only [Duple.mk.injEq]
    exact ⟨hx₁.symm.trans hx₂, hy₁.symm.trans hy₂⟩
  · simp [ConstrainedItem.left_of, ConstrainedItem.push_back]
  · simp [ConstrainedItem.left_of, ConstrainedItem.push_back]

/-- Witness for C19: the gaps 1 and 2 and the points `(0, 0)` and `(1, 0)` on the
entities of the items named `A`, `B` and `C`. -/
theorem C19_conflicting_pins_unsatisfiable_witness :
    ((1 : ℚ) ≠ 2 ∧ (⟨0, 0⟩ : Duple) ≠ ⟨1, 0⟩)
      ∧ (¬ ∃ σ : VarValues, satisfies σ
          (((ConstrainedItem.ctor ⟨"A", []⟩).left_of (ConstrainedItem.ctor ⟨"B", []⟩) 1).left_of
            (ConstrainedItem.ctor ⟨"C", []⟩) 2)._constraints)
      ∧ (¬ ∃ σ : VarValues, satisfies σ
          (((ConstrainedItem.ctor ⟨"A", []⟩).at_ ⟨0, 0⟩).at_ ⟨1, 0⟩)._constraints) :=
  have hg : (1 : ℚ) ≠ 2 := by norm_num
  have hp : (⟨0, 0⟩ : Duple) ≠ ⟨1, 0⟩ := by simp
  have h := C19_conflicting_pins_unsatisfiable (ConstrainedItem.ctor ⟨"A", []⟩)
    (ConstrainedItem.ctor ⟨"B", []⟩) (ConstrainedItem.ctor ⟨"C", []⟩) 1 2 ⟨0, 0⟩ ⟨1, 0⟩ hg hp
  ⟨⟨hg, hp⟩, h.1, h.2.1⟩

/-- C20: for every two entities `A` and `B` and every valuation (exact
arithmetic) that satisfies the four construction equalities of `B` and the list
of `A` after `A.centered_on (B, dx, dy).same_size_as (B, dw, dh)`:
`A.left = B.left + dx - dw/2`, `A.right = B.right + dx + dw/2`,
`A.top = B.top + dy - dh/2` and `A.bottom = B.bottom + dy + dh/2`; with all
offsets zero the rectangle `constrained` delivers for `A` is the one it delivers
for `B`. -/
theorem C20_centered_same_size (iA iB : Item) (dx dy dw dh : ℚ) (packer : ConstraintPacker)
    (σ : VarValues)
    (hB : satisfies σ (ConstrainedItem.ctor iB)._constraints)
    (hA : satisfies σ (((ConstrainedItem.ctor iA).centered_on (ConstrainedItem.ctor iB) dx
      dy).same_size_as (ConstrainedItem.ctor iB) dw dh)._constraints) :
    σ (ConstrainedItem.ctor iA).left = σ (ConstrainedItem.ctor iB).left + dx - dw / 2
      ∧ σ (ConstrainedItem.ctor iA).right = σ (ConstrainedItem.ctor iB).right + dx + dw / 2
      ∧ σ (ConstrainedItem.ctor iA).top = σ (ConstrainedItem.ctor iB).top + dy - dh / 2
      ∧ σ (ConstrainedItem.ctor iA).bottom = σ (ConstrainedItem.ctor iB).bottom + dy + dh / 2
      ∧ (dx = 0 → dy = 0 → dw = 0 → dh = 0 →
          ((((ConstrainedItem.ctor iA).centered_on (ConstrainedItem.ctor iB) dx
              dy).same_size_as (ConstrainedItem.ctor iB) dw dh).constrained packer
                σ)._item.allocated.getLast? =
            ((ConstrainedItem.ctor iB).constrained packer σ)._item.allocated.getLast?) := by
  simp only [ConstrainedItem.ctor, ConstrainedItem.centered_on, ConstrainedItem.same_size_as,
    ConstrainedItem.push_back,
    ConstrainedItem.center_x, ConstrainedItem.center_y, ConstrainedItem.left,
    ConstrainedItem.top, ConstrainedItem.width, ConstrainedItem.height,
    List.nil_append, List.cons_append, satisfies_cons, Constraint.holds, Expression.eval]
    at hA hB
  obtain ⟨bcx, bcy, br, bb, -⟩ := hB
  obtain ⟨acx, acy, ar, ab, ax, ay, aw, ah, -⟩ := hA
  have hl : σ ⟨iA.name ++ " left"⟩ = σ ⟨iB.name ++ " left"⟩ + dx - dw / 2 := by linarith
  have hr : σ ⟨iA.name ++ " right"⟩ = σ ⟨iB.name ++ " right"⟩ + dx + dw / 2 := by linarith
  have ht : σ ⟨iA.name ++ " top"⟩ = σ ⟨iB.name ++ " top"⟩ + dy - dh / 2 := by linarith
  have hb : σ ⟨iA.name ++ " bottom"⟩ = σ ⟨iB.name ++ " bottom"⟩ + dy + dh / 2 := by linarith
  refine ⟨hl, hr, ht, hb, ?_⟩
  intro hdx hdy hdw hdh
  subst hdx hdy hdw hdh
  simp only [add_zero, zero_div, sub_zero] at hl hr ht hb
  simp [ConstrainedItem.constrained, Item.size_allocate, ConstrainedItem.ctor,
    ConstrainedItem.centered_on, ConstrainedItem.same_size_as, ConstrainedItem.push_back,
    hl, hr, ht, hb]

/-- Witness for C20: the items named `A` and `B`, the offsets `dx = dy = 1`,
`dw = dh = 2` and the solution `centeredSceneValues`. -/
theorem C20_centered_same_size_witness :
    centeredSceneValues (ConstrainedItem.ctor ⟨"A", []⟩).right =
      centeredSceneValues (ConstrainedItem.ctor ⟨"B", []⟩).right + 1 + 2 / 2 :=
  (C20_centered_same_size ⟨"A", []⟩ ⟨"B", []⟩ 1 1 2 2 ⟨⟩ centeredSceneValues
    (by
      simp [ConstrainedItem.ctor, ConstrainedItem.push_back,
        ConstrainedItem.center_x, ConstrainedItem.center_y, ConstrainedItem.left,
        ConstrainedItem.top, ConstrainedItem.width, ConstrainedItem.height,
        satisfies, Constraint.holds, Expression.eval, centeredSceneValues]
      norm_num)
    (by
      simp [ConstrainedItem.ctor, ConstrainedItem.centered_on, ConstrainedItem.same_size_as,
        ConstrainedItem.push_back,
        ConstrainedItem.center_x, ConstrainedItem.center_y, ConstrainedItem.left,
        ConstrainedItem.top, ConstrainedItem.width, ConstrainedItem.height,
        satisfies, Constraint.holds, Expression.eval, centeredSceneValues]
      norm_num)).2.1

end ArdourCanvas
